import Mathlib

/-!
Verification of the Asgardeo resource-manager agent, as a shallow embedding
of the repository's Python sources.

Python `str` values are modelled as Lean `String` (a sequence of unicode
scalar values), bytes as `Nat` below 256, and parsed JSON documents as the
`JValue` type below.  External I/O (the `requests` library) is modelled by
an oracle `net : HttpRequest → HttpOutcome` supplied to each embedded
function; an embedded function returns the requests it issued alongside its
result, so that theorems can talk about what was (or was not) sent over the
network.
-/

namespace AsgardeoAgent

/-- Parsed JSON values, as produced by Python's `json.loads`: objects keep
their key insertion order (Python dicts are ordered).  Numbers are modelled
as integers only; the repository never manipulates fractional JSON numbers. -/
inductive JValue where
  | null : JValue
  | bool (b : Bool) : JValue
  | num (n : Int) : JValue
  | str (s : String) : JValue
  | arr (xs : List JValue) : JValue
  | obj (fields : List (String × JValue)) : JValue
deriving Repr

/-- Python `dict.get k` (returning `None` when absent) on a JSON object's
field list: first binding wins (`json.loads` never yields duplicate keys). -/
def objLookup : List (String × JValue) → String → Option JValue
  | [], _ => none
  | (k, v) :: rest, key => if k = key then some v else objLookup rest key

/-- Python truthiness of a parsed JSON value. -/
def jTruthyV : JValue → Bool
  | .null => false
  | .bool b => b
  | .num n => n != 0
  | .str s => s != ""
  | .arr xs => !xs.isEmpty
  | .obj fs => !fs.isEmpty

/-- Python truthiness of `dict.get` output (`None` is falsy). -/
def jTruthy (o : Option JValue) : Bool :=
  o.elim false jTruthyV

/-- Python's `type(x).__name__` for parsed JSON values (used in the text of
`AttributeError` / `TypeError` messages). -/
def pyTypeName : JValue → String
  | .null => "NoneType"
  | .bool _ => "bool"
  | .num _ => "int"
  | .str _ => "str"
  | .arr _ => "list"
  | .obj _ => "dict"

/-- One character of Python `repr` for strings, with quote character `q`.
Only the quote character and backslash are escaped (control-character and
unicode escapes of CPython's `repr` are not modelled; no claim depends on
them). -/
def pyEscapeChar (q : Char) (c : Char) : List Char :=
  if c = '\\' ∨ c = q then ['\\', c] else [c]

/-- Python `repr` of a string: single quotes, switching to double quotes
when the text contains a single quote but no double quote. -/
def pyStrRepr (s : String) : String :=
  let q : Char := if s.data.contains '\'' ∧ ¬ s.data.contains '"' then '"' else '\''
  ⟨q :: (s.data.map (pyEscapeChar q)).flatten ++ [q]⟩

mutual

/-- Python `repr` of a parsed JSON value. -/
def pyRepr : JValue → String
  | .null => "None"
  | .bool true => "True"
  | .bool false => "False"
  | .num n => toString n
  | .str s => pyStrRepr s
  | .arr xs => "[" ++ pyReprSeq xs ++ "]"
  | .obj fs => "\x7b" ++ pyReprFields fs ++ "\x7d"

/-- Comma-separated `repr`s of list elements. -/
def pyReprSeq : List JValue → String
  | [] => ""
  | [x] => pyRepr x
  | x :: y :: rest => pyRepr x ++ ", " ++ pyReprSeq (y :: rest)

/-- Comma-separated `'key': value` pairs of a dict's `repr`. -/
def pyReprFields : List (String × JValue) → String
  | [] => ""
  | [(k, v)] => pyStrRepr k ++ ": " ++ pyRepr v
  | (k, v) :: f :: rest => pyStrRepr k ++ ": " ++ pyRepr v ++ ", " ++ pyReprFields (f :: rest)

end

/-- Python `str()` of a parsed JSON value (`str` of a string is itself;
containers and scalars use `repr` formatting, as in a Python f-string). -/
def pyStr : JValue → String
  | .str s => s
  | v => pyRepr v

/-- JSON string quoting for `json.dumps` (escaping quote and backslash;
CPython's control-character escapes are not modelled). -/
def jsonQuote (s : String) : String :=
  ⟨'"' :: (s.data.map (pyEscapeChar '"')).flatten ++ ['"']⟩

/-- `n` spaces. -/
def spaces (n : Nat) : String :=
  ⟨List.replicate n ' '⟩

mutual

/-- Python `json.dumps(v, indent=2)`, at nesting level `l` (the indentation
of the enclosing container). -/
def jsonDumps2 : Nat → JValue → String
  | _, .null => "null"
  | _, .bool true => "true"
  | _, .bool false => "false"
  | _, .num n => toString n
  | _, .str s => jsonQuote s
  | _, .arr [] => "[]"
  | l, .arr (x :: xs) => "[\n" ++ jsonDumps2Seq (l + 2) (x :: xs) ++ "\n" ++ spaces l ++ "]"
  | _, .obj [] => "\x7b\x7d"
  | l, .obj (f :: fs) => "\x7b\n" ++ jsonDumps2Fields (l + 2) (f :: fs) ++ "\n" ++ spaces l ++ "\x7d"

/-- Indented, comma-separated dump of array elements. -/
def jsonDumps2Seq : Nat → List JValue → String
  | _, [] => ""
  | l, [x] => spaces l ++ jsonDumps2 l x
  | l, x :: y :: rest => spaces l ++ jsonDumps2 l x ++ ",\n" ++ jsonDumps2Seq l (y :: rest)

/-- Indented, comma-separated dump of object fields. -/
def jsonDumps2Fields : Nat → List (String × JValue) → String
  | _, [] => ""
  | l, [(k, v)] => spaces l ++ jsonQuote k ++ ": " ++ jsonDumps2 l v
  | l, (k, v) :: f :: rest =>
      spaces l ++ jsonQuote k ++ ": " ++ jsonDumps2 l v ++ ",\n" ++ jsonDumps2Fields l (f :: rest)

end

/-- Python `json.dumps(v, indent=2)`. -/
def jsonDumpsIndent2 (j : JValue) : String :=
  jsonDumps2 0 j

/-- Python `s.rstrip('/')`: remove every trailing slash. -/
def rstripSlash (s : String) : String :=
  ⟨(s.data.reverse.dropWhile (· = '/')).reverse⟩

/-- ASCII lower-casing of one character; models CPython `str.lower` on the
ASCII range (the repository only lower-cases to test for a `"basic "`
transport marker, which is pure ASCII). -/
def asciiLower (c : Char) : Char :=
  if 'A' ≤ c ∧ c ≤ 'Z' then Char.ofNat (c.toNat + 32) else c

/-- ASCII upper-casing of one character (models `str.upper` on HTTP method
names, which are ASCII). -/
def asciiUpper (c : Char) : Char :=
  if 'a' ≤ c ∧ c ≤ 'z' then Char.ofNat (c.toNat - 32) else c

/-- `str.upper` over a whole string. -/
def pyUpper (s : String) : String :=
  ⟨s.data.map asciiUpper⟩

/-- Python `s[:n]` on a string. -/
def takeChars (n : Nat) (s : String) : String :=
  ⟨s.data.take n⟩

/-- One HTTP request as handed to the `requests` library: everything the
repository passes to `requests.request` / `requests.get` / `requests.post` /
`requests.delete` that is observable, including whether a `timeout=` bound
was given (`none` = no timeout argument). -/
structure HttpRequest where
  method : String
  url : String
  headers : List (String × String)
  params : Option JValue
  formData : Option (List (String × String))
  jsonBody : Option JValue
  timeout : Option Nat
deriving Repr

/-- The outcome of handing one `HttpRequest` to the `requests` library:
either a response (with status, body text, and the result of attempting to
parse the body as JSON — `none` when `response.json()` would raise), or a
`requests.exceptions.RequestException` with its message and the optional
attached response `(status, text)`, or any other exception. -/
inductive HttpOutcome where
  | response (status : Nat) (text : String) (json : Option JValue)
  | requestExc (msg : String) (resp : Option (Nat × String))
  | otherExc (msg : String)
deriving Repr

/-! ### Base64 (Python `base64.b64encode` / `b64decode`) -/

/-- The standard base64 alphabet, by digit index. -/
def b64Char (i : Nat) : Char :=
  if i < 26 then Char.ofNat (65 + i)
  else if i < 52 then Char.ofNat (71 + i)
  else if i < 62 then Char.ofNat (i - 4)
  else if i = 62 then '+'
  else '/'

/-- Inverse of the base64 alphabet: `some digit` for alphabet characters,
`none` otherwise. -/
def b64Digit (c : Char) : Option Nat :=
  if 'A' ≤ c ∧ c ≤ 'Z' then some (c.toNat - 65)
  else if 'a' ≤ c ∧ c ≤ 'z' then some (c.toNat - 71)
  else if '0' ≤ c ∧ c ≤ '9' then some (c.toNat + 4)
  else if c = '+' then some 62
  else if c = '/' then some 63
  else none

/-- Standard base64 encoding of a byte sequence, with `=` padding. -/
def b64Encode : List Nat → List Char
  | [] => []
  | [a] => [b64Char (a / 4), b64Char (a % 4 * 16), '=', '=']
  | [a, b] => [b64Char (a / 4), b64Char (a % 4 * 16 + b / 16), b64Char (b % 16 * 4), '=']
  | a :: b :: c :: rest =>
      b64Char (a / 4) :: b64Char (a % 4 * 16 + b / 16) :: b64Char (b % 16 * 4 + c / 64) ::
      b64Char (c % 64) :: b64Encode rest

/-- CPython's non-strict `binascii.a2b_base64` state machine (what
`base64.b64decode` runs with its default `validate=False`): walk the input
with the quad position `quadPos` (0–3), the pending bits `leftchar` and a
running pad count `pads`.  A data character resets `pads` and emits a byte
at positions 1→2, 2→3 and 3→0; a character outside the alphabet is skipped
(leaving `pads` alone); an `=` at `quadPos < 2` is skipped, while at
`quadPos ≥ 2` it bumps `pads` and, once `quadPos + pads` reaches 4, ends
decoding successfully — ignoring all remaining input.  Input exhausted at
`quadPos ≠ 0` is the `binascii.Error` (`none`). -/
def a2bBase64Go : List Char → Nat → Nat → Nat → Option (List Nat)
  | [], quadPos, _, _ => if quadPos = 0 then some [] else none
  | c :: cs, quadPos, leftchar, pads =>
    if c = '=' then
      if 2 ≤ quadPos ∧ 4 ≤ quadPos + pads + 1 then some []
      else if 2 ≤ quadPos then a2bBase64Go cs quadPos leftchar (pads + 1)
      else a2bBase64Go cs quadPos leftchar pads
    else
      match b64Digit c with
      | none => a2bBase64Go cs quadPos leftchar pads
      | some d =>
        match quadPos with
        | 0 => a2bBase64Go cs 1 d 0
        | 1 => (a2bBase64Go cs 2 (d % 16) 0).map (fun bs => (leftchar * 4 + d / 16) :: bs)
        | 2 => (a2bBase64Go cs 3 (d % 4) 0).map (fun bs => (leftchar * 16 + d / 4) :: bs)
        | _ => (a2bBase64Go cs 0 0 0).map (fun bs => (leftchar * 64 + d) :: bs)

/-- Alphabet-or-padding characters: exactly what `b64Encode` emits. -/
def isB64Alpha (c : Char) : Bool :=
  (b64Digit c).isSome || c = '='

/-- Python `base64.b64decode` on a `str` argument: the string must be pure
ASCII (`_bytes_from_decode_data` calls `s.encode('ascii')`, raising
`ValueError` otherwise), then the non-strict `a2b_base64` state machine is
run from its initial state. `none` models the raised
`ValueError` / `binascii.Error`. -/
def pyB64Decode (s : List Char) : Option (List Nat) :=
  if s.all (fun c => c.toNat < 128) then a2bBase64Go s 0 0 0 else none

/-! ### UTF-8 (Python `str.encode('utf-8')` / `bytes.decode('utf-8')`) -/

/-- UTF-8 encoding of one unicode scalar value. -/
def utf8EncodeChar (c : Char) : List Nat :=
  let n := c.toNat
  if n < 0x80 then [n]
  else if n < 0x800 then [0xC0 + n / 64, 0x80 + n % 64]
  else if n < 0x10000 then [0xE0 + n / 4096, 0x80 + n / 64 % 64, 0x80 + n % 64]
  else [0xF0 + n / 262144, 0x80 + n / 4096 % 64, 0x80 + n / 64 % 64, 0x80 + n % 64]

/-- UTF-8 encoding of a string (as its list of scalar values). -/
def utf8Encode (s : List Char) : List Nat :=
  (s.map utf8EncodeChar).flatten

/-- UTF-8 continuation byte: `10xxxxxx`. -/
def isContByte (b : Nat) : Bool :=
  decide (0x80 ≤ b ∧ b < 0xC0)

/-- Decoding step for a two-byte sequence led by `b` (`0xC2 ≤ b < 0xE0`):
consume one continuation byte and hand the rest to `rec`. -/
def utf8Step2 (b : Nat) (bs : List Nat) (rec : List Nat → Option (List Char)) :
    Option (List Char) :=
  match bs with
  | b1 :: bs' =>
    if isContByte b1 then
      (rec bs').map (Char.ofNat ((b - 0xC0) * 64 + (b1 - 0x80)) :: ·)
    else none
  | [] => none

/-- Decoding step for a three-byte sequence led by `b` (`0xE0 ≤ b < 0xF0`):
two continuation bytes, with the restricted second-byte ranges of `0xE0`
(excluding overlong forms) and `0xED` (excluding surrogates). -/
def utf8Step3 (b : Nat) (bs : List Nat) (rec : List Nat → Option (List Char)) :
    Option (List Char) :=
  match bs with
  | b1 :: b2 :: bs' =>
    if (if b = 0xE0 then decide (0xA0 ≤ b1 ∧ b1 < 0xC0)
        else if b = 0xED then decide (0x80 ≤ b1 ∧ b1 < 0xA0)
        else isContByte b1) ∧ isContByte b2 then
      (rec bs').map
        (Char.ofNat ((b - 0xE0) * 4096 + (b1 - 0x80) * 64 + (b2 - 0x80)) :: ·)
    else none
  | _ => none

/-- Decoding step for a four-byte sequence led by `b` (`0xF0 ≤ b < 0xF5`):
three continuation bytes, with the restricted second-byte ranges of `0xF0`
(excluding overlong forms) and `0xF4` (excluding values above `0x10FFFF`). -/
def utf8Step4 (b : Nat) (bs : List Nat) (rec : List Nat → Option (List Char)) :
    Option (List Char) :=
  match bs with
  | b1 :: b2 :: b3 :: bs' =>
    if (if b = 0xF0 then decide (0x90 ≤ b1 ∧ b1 < 0xC0)
        else if b = 0xF4 then decide (0x80 ≤ b1 ∧ b1 < 0x90)
        else isContByte b1) ∧ isContByte b2 ∧ isContByte b3 then
      (rec bs').map
        (Char.ofNat ((b - 0xF0) * 262144 + (b1 - 0x80) * 4096 + (b2 - 0x80) * 64 + (b3 - 0x80)) :: ·)
    else none
  | _ => none

/-- Fuelled driver of strict UTF-8 decoding; the fuel is an upper bound on
the byte count (supplied by `utf8Decode` below), making the `0, _` row
unreachable. -/
def utf8DecodeGo : Nat → List Nat → Option (List Char)
  | _, [] => some []
  | 0, _ => none
  | f + 1, b :: bs =>
    if b < 0x80 then (utf8DecodeGo f bs).map (Char.ofNat b :: ·)
    else if b < 0xC2 then none
    else if b < 0xE0 then utf8Step2 b bs (utf8DecodeGo f)
    else if b < 0xF0 then utf8Step3 b bs (utf8DecodeGo f)
    else if b < 0xF5 then utf8Step4 b bs (utf8DecodeGo f)
    else none

/-- Strict UTF-8 decoding (Python `bytes.decode('utf-8')`): rejects
truncated sequences, bad continuation bytes, overlong encodings, surrogate
code points and values above `0x10FFFF`; `none` models the raised
`UnicodeDecodeError`. -/
def utf8Decode (bs : List Nat) : Option (List Char) :=
  utf8DecodeGo bs.length bs

/-! ### `src/auth.py`: `decode_api_key` -/

/-- The `"basic "` marker test and strip of `decode_api_key`:
`api_key_header.lower().startswith('basic ')`, then `api_key_header[6:]`. -/
def stripBasic (s : List Char) : List Char :=
  if ("basic ".data).isPrefixOf (s.map asciiLower) then s.drop 6 else s

/-- Python `s.split(':', 1)`: the text before the first colon, and (when a
colon is present) the text after it. -/
def splitColonFirst : List Char → List Char × Option (List Char)
  | [] => ([], none)
  | c :: cs =>
    if c = ':' then ([], some cs)
    else
      let (pre, rest) := splitColonFirst cs
      (c :: pre, rest)

/-- The distinct failure modes of `decode_api_key`: which exception was
raised internally before being converted to a 401 `HTTPException`.
`base64Error` covers `binascii.Error` and the `ValueError` raised by
`b64decode` on non-ASCII input; `unicodeError` is `UnicodeDecodeError`;
the two `format` cases are the two explicitly raised `ValueError`s. -/
inductive ApiKeyFailure where
  | missingHeader
  | base64Error
  | unicodeError
  | formatNoColon
  | formatEmptyHalf
deriving Repr, DecidableEq

/-- `src/auth.py` `decode_api_key`: strips an optional case-insensitive
`"Basic "` marker, base64-decodes, UTF-8-decodes, splits on the first `:`
and requires both halves non-empty. -/
def decode_api_key (api_key_header : String) : Except ApiKeyFailure (String × String) :=
  if api_key_header = "" then .error .missingHeader
  else
    match pyB64Decode (stripBasic api_key_header.data) with
    | none => .error .base64Error
    | some bytes =>
      match utf8Decode bytes with
      | none => .error .unicodeError
      | some textChars =>
        match splitColonFirst textChars with
        | (pre, some post) =>
          if pre ≠ [] ∧ post ≠ [] then .ok (⟨pre⟩, ⟨post⟩)
          else .error .formatEmptyHalf
        | (_, none) => .error .formatNoColon

/-- The `detail` string of the 401 `HTTPException` that `decode_api_key`
raises for each failure (the library exception texts inside the
`"Invalid API key format: "` wrapper are abbreviated; the two explicitly
raised `ValueError` texts are verbatim). -/
def apiKeyFailureDetail : ApiKeyFailure → String
  | .missingHeader => "API key header is missing"
  | .base64Error => "Invalid API key format: Invalid base64-encoded string"
  | .unicodeError => "Invalid API key format: invalid utf-8 sequence"
  | .formatNoColon =>
      "Invalid API key format: API key must be in 'clientId:clientSecret' format after base64 decoding."
  | .formatEmptyHalf => "Invalid API key format: Invalid format after decoding."

/-- `decode_api_key` as seen by FastAPI: every failure becomes a 401
`HTTPException` with the corresponding detail string. -/
def decode_api_key_http (api_key_header : String) : Except (Nat × String) (String × String) :=
  match decode_api_key api_key_header with
  | .ok r => .ok r
  | .error e => .error (401, apiKeyFailureDetail e)

/-! ### `src/auth.py`: `get_asgardeo_access_token` (the Token Exchanger) -/

/-- Message text of `requests.HTTPError` as raised by `raise_for_status`
(the response `reason` phrase that CPython's requests interpolates is not
modelled; the status code and url are). -/
def httpErrorStr (status : Nat) (url : String) : String :=
  if status < 500 then toString status ++ " Client Error for url: " ++ url
  else toString status ++ " Server Error for url: " ++ url

/-- Failure modes of `get_asgardeo_access_token`; every one is raised as a
`ValueError` whose message is `tokenFailureMessage` below.  `requestError`
carries the status code of the attached response when there is one (the
`e.response is not None` branch of the source). -/
inductive TokenFailure where
  | requestError (respStatus : Option Nat) (msg : String)
  | jsonError (msg : String)
  | missingToken
  | unexpected (msg : String)
deriving Repr

/-- The `ValueError` message for each `TokenFailure`. -/
def tokenFailureMessage : TokenFailure → String
  | .requestError _ msg => msg
  | .jsonError msg => msg
  | .missingToken => "Access token not found in the response from Asgardeo token endpoint."
  | .unexpected msg => msg

/-- The POST request that `get_asgardeo_access_token` builds: tenant-scoped
token endpoint, pass-through `Basic` credential header, form-encoded
`grant_type=client_credentials`, query parameter `scope=SYSTEM`, and no
`timeout=` argument (the source leaves it commented out). -/
def tokenRequest (baseUrl api_key_b64 organization_name : String) : HttpRequest :=
  { method := "POST"
    url := rstripSlash baseUrl ++ "/" ++ organization_name ++ "/oauth2/token"
    headers := [("Authorization", "Basic " ++ api_key_b64),
                ("Content-Type", "application/x-www-form-urlencoded")]
    params := some (.obj [("scope", .str "SYSTEM")])
    formData := some [("grant_type", "client_credentials")]
    jsonBody := none
    timeout := none }

/-- `src/auth.py` `get_asgardeo_access_token`: issues the token POST and
maps the outcome.  `baseUrl` is the configured `ASGARDEO_BASE_URL`
environment value.  Returns the issued request together with either the
`access_token` JSON value or the raised `ValueError`, structured as a
`TokenFailure`.  A non-JSON 2xx body is modelled by the source's dedicated
`JSONDecodeError` branch (with requests ≥ 2.27 the preceding
`RequestException` branch would catch it instead; either way the exchange
fails and yields no token). -/
def get_asgardeo_access_token (baseUrl api_key_b64 organization_name : String)
    (net : HttpRequest → HttpOutcome) : HttpRequest × Except TokenFailure JValue :=
  let req := tokenRequest baseUrl api_key_b64 organization_name
  (req,
    match net req with
    | .response status text json =>
      if 400 ≤ status ∧ status < 600 then
        .error (.requestError (some status)
          ("Failed to obtain Asgardeo token: " ++ httpErrorStr status req.url ++
           " | Status Code: " ++ toString status ++ " | Response: " ++ text))
      else
        match json with
        | none => .error (.jsonError "Failed to parse JSON response from Asgardeo token endpoint")
        | some (.obj fields) =>
          match objLookup fields "access_token" with
          | some v => if jTruthyV v then .ok v else .error .missingToken
          | none => .error .missingToken
        | some other =>
          .error (.unexpected
            ("An unexpected error occurred during token exchange: '" ++ pyTypeName other ++
             "' object has no attribute 'get'"))
    | .requestExc msg resp =>
      .error (.requestError (resp.map Prod.fst)
        ("Failed to obtain Asgardeo token: " ++ msg ++
         (match resp with
          | some (st, tx) => " | Status Code: " ++ toString st ++ " | Response: " ++ tx
          | none => "")))
    | .otherExc msg =>
      .error (.unexpected ("An unexpected error occurred during token exchange: " ++ msg)))

/-! ### Path substitution (`src/tools/api_execution_tool.py`, the loop at lines 70–83) -/

/-- Fuelled core of Python `str.replace` (all leftmost, non-overlapping
occurrences).  The fuel is an upper bound on the text length; `replaceAll`
below supplies it, and every lemma assumes `s.length ≤ fuel`, which makes
the `0, s` row unreachable. -/
def replaceAllGo (pat repl : List Char) : Nat → List Char → List Char
  | _, [] => []
  | 0, s => s
  | fuel + 1, c :: cs =>
    if pat.isPrefixOf (c :: cs) then
      repl ++ replaceAllGo pat repl fuel (cs.drop (pat.length - 1))
    else c :: replaceAllGo pat repl fuel cs

/-- Python `s.replace(pat, repl)` for non-empty `pat`. -/
def replaceAll (pat repl s : List Char) : List Char :=
  replaceAllGo pat repl s.length s

/-- The placeholder text `"{key}"` built by the substitution loop. -/
def placeholderOf (k : String) : List Char :=
  '{' :: (k.data ++ ['}'])

/-- One iteration of the substitution loop: if `"{key}"` occurs in the
current path, replace every occurrence with `str(value)`; otherwise log a
warning and leave the path unchanged. -/
def substStep (p : List Char) (kv : String × JValue) : List Char :=
  if placeholderOf kv.1 <:+: p then replaceAll (placeholderOf kv.1) (pyStr kv.2).data p else p

/-- The whole substitution loop over the `path_params` dict (in insertion
order, as Python's `dict.items()` iterates). -/
def substitutePathParams (kvs : List (String × JValue)) (path : String) : String :=
  ⟨kvs.foldl substStep path.data⟩

/-! ### `src/tools/api_execution_tool.py`: `ApiExecutionTool._run` -/

/-- The two entries of `ASGARDEO_CONFIG` that `_run` reads, as populated by
`src/config.py` from environment variables (`none` models an unset variable,
and `base_url` may be the empty string after `rstrip`). -/
structure ExecConfig where
  api_token : Option String
  base_url : Option String
deriving Repr

/-- Python falsiness of a `dict.get` result that is `None` or a string. -/
def falsyOptStr : Option String → Bool
  | none => true
  | some s => s == ""

/-- Result of calling a tool `_run` method: either the returned observation
string, or an exception escaping `_run` (only the `AttributeError` on
non-dict parsed input can escape; every other exception is caught). -/
inductive PyResult where
  | ok (s : String)
  | exn (msg : String)
deriving Repr

namespace ApiExecutionTool

/-- `ApiExecutionTool._run`.  `api_call_details_json` is the raw input
string and `parsed` the result of `json.loads` on it (`none` models
`json.JSONDecodeError`).  Returns the observation (or escaping exception)
together with the list of HTTP requests issued. -/
def run (api_call_details_json : String) (parsed : Option JValue)
    (cfg : ExecConfig) (net : HttpRequest → HttpOutcome) : PyResult × List HttpRequest :=
  match parsed with
  | none => (.ok ("Error: Input was not a valid JSON string: " ++ api_call_details_json), [])
  | some (.obj fields) =>
    let badPlan : PyResult × List HttpRequest :=
      (.ok ("Error: Invalid content in JSON details: Parsed JSON details are missing 'method' or 'path'.. Received: "
            ++ api_call_details_json), [])
    match objLookup fields "method", objLookup fields "path" with
    | some methodV, some pathV =>
      if ¬ (jTruthyV methodV ∧ jTruthyV pathV) then badPlan
      else if falsyOptStr cfg.api_token then (.ok "Error: Asgardeo API token missing.", [])
      else if falsyOptStr cfg.base_url then
        (.ok "Error: Asgardeo base URL for key 'base_url' missing.", [])
      else
        let api_token := cfg.api_token.getD ""
        let base_url := cfg.base_url.getD ""
        let pathParams := objLookup fields "path_params"
        let finalPathE : Except String JValue :=
          if jTruthy pathParams then
            match pathParams with
            | some (.obj kvs) =>
              match pathV with
              | .str p => .ok (.str (substitutePathParams kvs p))
              | other =>
                .error ("Error substituting path parameters: argument of type '" ++
                        pyTypeName other ++ "' is not iterable")
            | some other =>
              .error ("Error substituting path parameters: '" ++ pyTypeName other ++
                      "' object has no attribute 'items'")
            | none => .ok pathV
          else .ok pathV
        match finalPathE with
        | .error msg => (.ok msg, [])
        | .ok finalPath =>
          let full_url := base_url ++ pyStr finalPath
          let headers := [("Authorization", "Bearer " ++ api_token),
                          ("Accept", "application/json"),
                          ("Content-Type", "application/json")]
          match methodV with
          | .str m =>
            let req : HttpRequest :=
              { method := pyUpper m, url := full_url, headers := headers,
                params := objLookup fields "query_params", formData := none,
                jsonBody := objLookup fields "request_body", timeout := some 30 }
            match net req with
            | .response status text json =>
              if 400 ≤ status ∧ status < 600 then
                (.ok ("API Request Failed: HTTP " ++ toString status ++
                      "\n--- Response Body ---\n" ++ text), [req])
              else
                match json with
                | some j => (.ok (jsonDumpsIndent2 j), [req])
                | none => (.ok text, [req])
            | .requestExc msg _ =>
              (.ok ("API Request Failed: Connection or request error - " ++ msg), [req])
            | .otherExc msg =>
              (.ok ("API Request Failed: Unexpected error - " ++ msg), [req])
          | other =>
            (.ok ("API Request Failed: Unexpected error - '" ++ pyTypeName other ++
                  "' object has no attribute 'upper'"), [])
    | _, _ => badPlan
  | some other => (.exn ("'" ++ pyTypeName other ++ "' object has no attribute 'get'"), [])

end ApiExecutionTool

/-! ### `src/utils/spec_loader.py`: `load_spec_from_url` -/

/-- The GET request issued for the OpenAPI document: no headers, no
`timeout=` argument. -/
def specFetchRequest (url : String) : HttpRequest :=
  { method := "GET", url := url, headers := [], params := none, formData := none,
    jsonBody := none, timeout := none }

/-- How `load_spec_from_url` fails: a `ConnectionError` for fetch problems,
or the top-level `RuntimeError("Failed during spec loading.")` that wraps
every parsing problem (the inner `ValueError`s are not caught by the inner
`except` clauses and reach the outer `except Exception`). -/
inductive SpecLoadFailure where
  | connectionError (msg : String)
  | runtimeError (msg : String)
deriving Repr

/-- `load_spec_from_url`: fetch, then YAML parse, then JSON parse, and the
result must be a mapping.  The YAML and JSON parsers are external library
functions, modelled as oracles returning `none` on a parse error. -/
def load_spec_from_url (url : String) (net : HttpRequest → HttpOutcome)
    (yamlParse jsonParse : String → Option JValue) :
    HttpRequest × Except SpecLoadFailure JValue :=
  let req := specFetchRequest url
  (req,
    match net req with
    | .response status text _ =>
      if 400 ≤ status ∧ status < 600 then
        .error (.connectionError ("Failed to fetch spec from " ++ url))
      else
        match yamlParse text with
        | some (.obj fields) => .ok (.obj fields)
        | some _ => .error (.runtimeError "Failed during spec loading.")
        | none =>
          match jsonParse text with
          | some (.obj fields) => .ok (.obj fields)
          | some _ => .error (.runtimeError "Failed during spec loading.")
          | none => .error (.runtimeError "Failed during spec loading.")
    | .requestExc _ _ => .error (.connectionError ("Failed to fetch spec from " ++ url))
    | .otherExc _ => .error (.runtimeError "Failed during spec loading."))

/-! ### `src/context.py` and the context-based tools (`src/tools/app_mgt_tools.py`) -/

/-- The two context variables of `src/context.py`, as read by a tool:
`none` models an unset variable (`get_request_api_key` / `get_request_org_name`
raise `RuntimeError`). -/
structure RequestCtx where
  apiKey : Option String
  orgName : Option String
deriving Repr

/-- Tool observation when `get_request_api_key` raises. -/
def ctxMissingApiKeyMsg : String :=
  "Error: Could not retrieve request context (API Key or Org Name). Detail: API key context variable is not set for this request."

/-- Tool observation when `get_request_org_name` raises. -/
def ctxMissingOrgMsg : String :=
  "Error: Could not retrieve request context (API Key or Org Name). Detail: Organization name context variable is not set for this request."

/-- Python `a or b` on `dict.get` results: the first operand when truthy,
otherwise the second. -/
def pyOr (a b : Option JValue) : Option JValue :=
  if jTruthy a then a else b

/-- The error message assembled by `delete_asgardeo_application` for an
HTTP error response, including the parsed `description`/`message`/`detail`
field when the body is a JSON object with a truthy one. -/
def deleteHttpErrorMessage (app_id organization_name : String) (status : Nat)
    (text : String) (json : Option JValue) : String :=
  let base := "Failed to delete application ID '" ++ app_id ++ "' in organization '" ++
              organization_name ++ "'. Status Code: " ++ toString status ++ "."
  match json with
  | some (.obj fields) =>
    let desc := pyOr (objLookup fields "description")
                  (pyOr (objLookup fields "message") (objLookup fields "detail"))
    if jTruthy desc then base ++ " Detail: " ++ pyStr (desc.getD .null)
    else base ++ " Response: " ++ takeChars 200 text
  | _ => base ++ " Response: " ++ takeChars 200 text

/-- `delete_asgardeo_application`: reads credentials from the request
context, exchanges them for a bearer token via `get_asgardeo_access_token`,
and only then issues the DELETE.  `baseUrl` is the configured
`ASGARDEO_BASE_URL` environment value.  Returns the observation and the
requests issued, in order. -/
def delete_asgardeo_application (app_id : String) (ctx : RequestCtx) (baseUrl : String)
    (net : HttpRequest → HttpOutcome) : String × List HttpRequest :=
  match ctx.apiKey with
  | none => (ctxMissingApiKeyMsg, [])
  | some api_key_b64 =>
  match ctx.orgName with
  | none => (ctxMissingOrgMsg, [])
  | some organization_name =>
  if app_id = "" then ("Error: Invalid or missing application ID provided.", [])
  else
    let api_endpoint := rstripSlash baseUrl ++ "/" ++ organization_name ++
                        "/api/server/v1/applications/" ++ app_id
    let (tokReq, tokRes) := get_asgardeo_access_token baseUrl api_key_b64 organization_name net
    match tokRes with
    | .error f =>
      ("Error obtaining authorization token for organization '" ++ organization_name ++ "': " ++
       tokenFailureMessage f ++ ". Please check API key and target URL.", [tokReq])
    | .ok (.str access_token) =>
      let req : HttpRequest :=
        { method := "DELETE", url := api_endpoint,
          headers := [("Authorization", "Bearer " ++ access_token),
                      ("Accept", "application/json")],
          params := none, formData := none, jsonBody := none, timeout := none }
      match net req with
      | .response status text json =>
        if status = 204 then
          ("Successfully deleted application with ID '" ++ app_id ++ "' from organization '" ++
           organization_name ++ "'.", [tokReq, req])
        else if 200 ≤ status ∧ status < 300 then
          ("Application deletion initiated or confirmed for ID '" ++ app_id ++
           "' in organization '" ++ organization_name ++ "' (Status: " ++ toString status ++ ").",
           [tokReq, req])
        else if 400 ≤ status ∧ status < 600 then
          (deleteHttpErrorMessage app_id organization_name status text json, [tokReq, req])
        else
          ("Received unexpected status code " ++ toString status ++
           " attempting to delete application ID '" ++ app_id ++ "'.", [tokReq, req])
      | .requestExc msg _ =>
        ("Error communicating with Asgardeo API for organization '" ++ organization_name ++
         "': " ++ msg, [tokReq, req])
      | .otherExc msg =>
        ("An unexpected error occurred while deleting application ID '" ++ app_id ++
         "' for organization '" ++ organization_name ++ "': " ++ msg, [tokReq, req])
    | .ok other =>
      ("An unexpected error occurred while deleting application ID '" ++ app_id ++
       "' for organization '" ++ organization_name ++ "': '" ++ pyTypeName other ++
       "' object is not subscriptable", [tokReq])

/-- One itemized line of `list_asgardeo_applications` output. -/
def entryLine (fields : List (String × JValue)) : String :=
  "- Name: " ++ pyStr ((objLookup fields "name").getD (.str "N/A")) ++
  " (ID: " ++ pyStr ((objLookup fields "id").getD (.str "N/A")) ++
  ", ClientID: " ++ pyStr ((objLookup fields "clientId").getD (.str "N/A")) ++ ")"

/-- The itemization loop of `list_asgardeo_applications` (lines 90–98 of
`app_mgt_tools.py`): appends one line per application, but once ten lines
were itemized and the total exceeds ten, appends the literal marker line
and breaks.  A non-dict element raises `AttributeError` (caught by the
tool's `except Exception`). -/
def buildAppList (total_apps : Nat) : Nat → List JValue → Except String (List String)
  | _, [] => .ok []
  | count, app :: rest =>
    if 10 ≤ count ∧ 10 < total_apps then .ok ["- ... (and more)"]
    else
      match app with
      | .obj fields => (buildAppList total_apps (count + 1) rest).map (entryLine fields :: ·)
      | other => .error ("'" ++ pyTypeName other ++ "' object has no attribute 'get'")

/-- `data_list = applications_data if isinstance(applications_data, list)
else applications_data.get('applications', [])`, together with the
exceptions that iterating / measuring a non-list value would raise further
down (all `AttributeError`/`TypeError`, all caught by `except Exception`). -/
def extractDataList : JValue → Except String (List JValue)
  | .arr xs => .ok xs
  | .obj fields =>
    match objLookup fields "applications" with
    | none => .ok []
    | some (.arr xs) => .ok xs
    | some (.str s) => if s = "" then .ok [] else .error "'str' object has no attribute 'get'"
    | some (.obj inner) => if inner.isEmpty then .ok [] else .error "'str' object has no attribute 'get'"
    | some .null => .error "object of type 'NoneType' has no len()"
    | some (.num _) => .error "object of type 'int' has no len()"
    | some (.bool _) => .error "object of type 'bool' has no len()"
  | .str _ => .error "'str' object has no attribute 'get'"
  | .num _ => .error "'int' object has no attribute 'get'"
  | .bool _ => .error "'bool' object has no attribute 'get'"
  | .null => .error "'NoneType' object has no attribute 'get'"

/-- `list_asgardeo_applications`: context, token exchange, GET, then the
count-and-itemize formatting. -/
def list_asgardeo_applications (ctx : RequestCtx) (baseUrl : String)
    (net : HttpRequest → HttpOutcome) : String × List HttpRequest :=
  match ctx.apiKey with
  | none => (ctxMissingApiKeyMsg, [])
  | some api_key_b64 =>
  match ctx.orgName with
  | none => (ctxMissingOrgMsg, [])
  | some organization_name =>
    let api_endpoint := baseUrl ++ organization_name ++ "/api/server/v1/applications"
    let (tokReq, tokRes) := get_asgardeo_access_token baseUrl api_key_b64 organization_name net
    match tokRes with
    | .error f =>
      ("Error obtaining authorization token for organization '" ++ organization_name ++ "': " ++
       tokenFailureMessage f ++ ". Please check API key and target URL.", [tokReq])
    | .ok (.str access_token) =>
      let req : HttpRequest :=
        { method := "GET", url := api_endpoint,
          headers := [("Authorization", "Bearer " ++ access_token),
                      ("Accept", "application/json")],
          params := none, formData := none, jsonBody := none, timeout := none }
      match net req with
      | .response status _text json =>
        if 400 ≤ status ∧ status < 600 then
          ("Error communicating with Asgardeo API for organization '" ++ organization_name ++
           "' (Status: " ++ toString status ++ "): " ++ httpErrorStr status api_endpoint,
           [tokReq, req])
        else
          match json with
          | none =>
            ("Error parsing the response from Asgardeo API for organization '" ++
             organization_name ++ "'. The response might not be valid JSON.", [tokReq, req])
          | some applications_data =>
            if ¬ jTruthyV applications_data then
              ("No applications found in organization '" ++ organization_name ++ "'.",
               [tokReq, req])
            else
              match extractDataList applications_data with
              | .error msg =>
                ("An unexpected error occurred while listing applications for organization '" ++
                 organization_name ++ "': " ++ msg, [tokReq, req])
              | .ok data_list =>
                match buildAppList data_list.length 0 data_list with
                | .error msg =>
                  ("An unexpected error occurred while listing applications for organization '" ++
                   organization_name ++ "': " ++ msg, [tokReq, req])
                | .ok app_list =>
                  ("Found " ++ toString data_list.length ++ " application(s) in organization '" ++
                   organization_name ++ "':\n" ++ String.intercalate "\n" app_list, [tokReq, req])
      | .requestExc msg resp =>
        ("Error communicating with Asgardeo API for organization '" ++ organization_name ++
         "' (Status: " ++ (match resp with | some (st, _) => toString st | none => "N/A") ++
         "): " ++ msg, [tokReq, req])
      | .otherExc msg =>
        ("An unexpected error occurred while listing applications for organization '" ++
         organization_name ++ "': " ++ msg, [tokReq, req])
    | .ok other =>
      ("An unexpected error occurred while listing applications for organization '" ++
       organization_name ++ "': '" ++ pyTypeName other ++ "' object is not subscriptable",
       [tokReq])

/-! ### `src/main.py`: the `/chat` endpoint -/

/-- One chat turn of the request payload (`schemas.py` `ChatMessage`). -/
structure ChatMessageS where
  role : String
  content : String
deriving Repr

/-- The `/chat` request payload (`schemas.py` `ChatRequest`). -/
structure ChatRequestS where
  organization_name : String
  chat : List ChatMessageS
deriving Repr

/-- The process-wide state of the two context variables of `src/context.py`. -/
structure CtxState where
  apiKey : Option String
  orgName : Option String
deriving Repr

/-- What the `/chat` endpoint hands back to FastAPI: a `ChatResponse`
content string or a raised `HTTPException`. -/
inductive ChatOutcome where
  | success (content : String)
  | httpError (status : Nat) (detail : String)
deriving Repr

/-- Python `l[-n:]`: the last `n` elements for `n ≥ 1`, the whole list for
`n = 0`. -/
def pySliceLast (n : Nat) (l : List α) : List α :=
  if n = 0 then l else l.drop (l.length - n)

/-- `src/main.py` `chat_endpoint`.  `maxChatHistory` stands for
`config.MAX_CHAT_HISTORY`; that constant is referenced by `main.py` but
defined nowhere under `src/`, so it is modelled from the spec ("a bounded
list of turns") as an arbitrary bound, universally quantified in every
theorem.  `runAgent` is the agent runner (`.error` models a raised
exception).  `s0` is the incoming state of the two context variables;
contextvar `Token`s hold the values they are set over, and `reset` restores
those, as in CPython.  Returns the endpoint outcome, the final context
state, and how many times each of the two variables was reset. -/
def chat_endpoint (maxChatHistory : Nat)
    (runAgent : String → List (String × String) → Except String String)
    (payload : ChatRequestS) (api_key_b64 : String) (s0 : CtxState) :
    ChatOutcome × CtxState × Nat × Nat :=
  if payload.organization_name = "" then
    (.httpError 400 "Organization name missing in payload", s0, 0, 0)
  else
    let api_key_token := s0.apiKey
    let s1 : CtxState := { s0 with apiKey := some api_key_b64 }
    let org_name_token := s1.orgName
    let s2 : CtxState := { s1 with orgName := some payload.organization_name }
    let history_to_keep := pySliceLast maxChatHistory payload.chat
    match history_to_keep.getLast? with
    | none =>
      let s4 : CtxState := { { s2 with apiKey := api_key_token } with orgName := org_name_token }
      (.httpError 400 "Invalid chat payload.", s4, 1, 1)
    | some lastMsg =>
      if lastMsg.role ≠ "user" then
        let s4 : CtxState := { { s2 with apiKey := api_key_token } with orgName := org_name_token }
        (.httpError 400 "Invalid chat payload.", s4, 1, 1)
      else
        let formatted_history := history_to_keep.dropLast.map (fun m => (m.role, m.content))
        let result := runAgent lastMsg.content formatted_history
        let s4 : CtxState := { { s2 with apiKey := api_key_token } with orgName := org_name_token }
        match result with
        | .ok content => (.success content, s4, 1, 1)
        | .error e => (.httpError 500 ("An internal error occurred: " ++ e), s4, 1, 1)

/-! ### Concrete network stubs used by individual claims -/

/-- Stub network for claim 3: the token exchange (a POST) succeeds with
token `"TOK"`; the subsequent call receives `204 No Content` with an empty,
non-JSON body. -/
def c3net : HttpRequest → HttpOutcome := fun req =>
  if req.method = "POST" then .response 200 "" (some (.obj [("access_token", .str "TOK")]))
  else .response 204 "" none

/-- Stub network for claim 10: the token exchange (a POST) succeeds with
token `"TOK"`; the list GET returns `{"applications": [...]}` built from
the given field lists. -/
def c10net (apps : List (List (String × JValue))) : HttpRequest → HttpOutcome := fun req =>
  if req.method = "POST" then .response 200 "" (some (.obj [("access_token", .str "TOK")]))
  else .response 200 "" (some (.obj [("applications", .arr (apps.map .obj))]))

/-- `joinWith sep [q₁, …, qₙ] = q₁ ++ sep ++ … ++ sep ++ qₙ`: the canonical
decomposition of a text around the occurrences of a separator, used to state
that the substitution loop replaces every occurrence of a placeholder. -/
def joinWith (sep : List Char) : List (List Char) → List Char
  | [] => []
  | [q] => q
  | q :: q' :: rest => q ++ sep ++ joinWith sep (q' :: rest)

/-! ## Theorems -/

/-- Claim C9 is refuted at a concrete input: the token-exchange POST built
by `get_asgardeo_access_token` carries no timeout (the source leaves the
`timeout=` argument commented out), so it is not the case that every
downstream HTTP call the system issues carries a bounded timeout. -/
theorem claim9_counterexample :
    (tokenRequest "https://api.asgardeo.io/t/" "KEY" "demo").timeout = none := rfl

/-- Claim C9, amended: only the call-plan executor's API request carries a
bounded timeout (30 seconds); the token-exchange POST and the spec-document
GET are issued without any timeout. -/
theorem claim9_amended :
    (∀ baseUrl key org, (tokenRequest baseUrl key org).timeout = none) ∧
    (∀ url, (specFetchRequest url).timeout = none) ∧
    (∀ raw parsed cfg net,
      ((ApiExecutionTool.run raw parsed cfg net).2.all fun r => r.timeout == some 30) = true) := by
  refine ⟨fun _ _ _ => rfl, fun _ => rfl, fun raw parsed cfg net => ?_⟩
  unfold ApiExecutionTool.run
  dsimp only
  repeat' split
  all_goals rfl

/-- Claim C1 is refuted at a concrete input: on a well-formed call-plan the
call-plan executor (`ApiExecutionTool._run`) issues exactly one HTTP
request, authenticated with the statically configured `api_token` from
`ASGARDEO_CONFIG` (`"Bearer STATIC_TOKEN"`), and that request goes straight
to the API endpoint — no token-exchange request is ever issued and the
request context plays no part. -/
theorem claim1_counterexample :
    ∃ req : HttpRequest,
      ApiExecutionTool.run "plan"
          (some (.obj [("method", .str "GET"), ("path", .str "/api/server/v1/applications")]))
          ⟨some "STATIC_TOKEN", some "https://api.asgardeo.io/t/demo"⟩
          (fun _ => .response 200 "ok" none)
        = (.ok "ok", [req]) ∧
      ("Authorization", "Bearer STATIC_TOKEN") ∈ req.headers ∧
      req.url = "https://api.asgardeo.io/t/demo/api/server/v1/applications" := by
  refine ⟨{ method := "GET", url := "https://api.asgardeo.io/t/demo/api/server/v1/applications",
            headers := [("Authorization", "Bearer STATIC_TOKEN"), ("Accept", "application/json"),
                        ("Content-Type", "application/json")],
            params := none, formData := none, jsonBody := none, timeout := some 30 }, ?_, ?_, rfl⟩
  · rfl
  · simp

/-- Claim C1, amended: the call-plan executor (`ApiExecutionTool._run`)
authenticates with the statically configured `api_token`, returning an
error-string observation and issuing no request when it is missing; the
context-based management tools (here `delete_asgardeo_application`) obtain
their bearer token by invoking the Token Exchanger with the request
context's credential blob and tenant id, and when that exchange fails they
return an error-string observation with only the token POST issued — the
downstream DELETE is never sent. -/
theorem claim1_amended :
    (∀ raw (fields : List (String × JValue)) cfg net methodV pathV,
        objLookup fields "method" = some methodV → objLookup fields "path" = some pathV →
        jTruthyV methodV = true → jTruthyV pathV = true →
        falsyOptStr cfg.api_token = true →
        ApiExecutionTool.run raw (some (.obj fields)) cfg net
          = (.ok "Error: Asgardeo API token missing.", [])) ∧
    (∀ app_id key org baseUrl net f,
        app_id ≠ "" →
        (get_asgardeo_access_token baseUrl key org net).2 = .error f →
        delete_asgardeo_application app_id ⟨some key, some org⟩ baseUrl net
          = ("Error obtaining authorization token for organization '" ++ org ++ "': " ++
             tokenFailureMessage f ++ ". Please check API key and target URL.",
             [tokenRequest baseUrl key org])) := by
  constructor
  · intro raw fields cfg net methodV pathV hm hp htm htp htok
    simp [ApiExecutionTool.run, hm, hp, htm, htp, htok]
  · intro app_id key org baseUrl net f happ hf
    have e : get_asgardeo_access_token baseUrl key org net
        = (tokenRequest baseUrl key org, Except.error f) := Prod.ext rfl hf
    simp [delete_asgardeo_application, e, happ]

/-- Witness for claim C1's amended theorem: both halves applied at concrete
inputs (missing static token; failing token exchange). -/
theorem claim1_amended_witness :
    ApiExecutionTool.run "x" (some (.obj [("method", .str "GET"), ("path", .str "/p")]))
        ⟨none, some "https://b"⟩ (fun _ => .otherExc "e")
      = (.ok "Error: Asgardeo API token missing.", []) ∧
    delete_asgardeo_application "abc" ⟨some "K", some "demo"⟩ "https://h"
        (fun _ => .requestExc "boom" none)
      = ("Error obtaining authorization token for organization 'demo': Failed to obtain Asgardeo token: boom. Please check API key and target URL.",
         [tokenRequest "https://h" "K" "demo"]) := by
  constructor
  · exact claim1_amended.1 "x" _ _ _ _ _ rfl rfl (by decide) (by decide) rfl
  · exact claim1_amended.2 "abc" "K" "demo" "https://h" _
      (.requestError none "Failed to obtain Asgardeo token: boom") (by decide) rfl

/-- Claim C3 is refuted at a concrete input: executing the delete-shaped
call-plan `{"method": "DELETE", "path": "/applications/{appId}",
"path_params": {"appId": "abc123"}}` through the call-plan executor against
a 204 No Content response yields the *empty string* as observation (the raw
empty body), not a success message mentioning `abc123`. -/
theorem claim3_counterexample :
    (ApiExecutionTool.run "plan"
        (some (.obj [("method", .str "DELETE"),
                     ("path", .str "/applications/\x7bappId\x7d"),
                     ("path_params", .obj [("appId", .str "abc123")])]))
        ⟨some "TOK", some "https://api.asgardeo.io/t/demo"⟩
        (fun _ => .response 204 "" none)).1
      = .ok "" ∧
    ¬ ("abc123".data <:+: ("" : String).data) ∧
    ¬ ("deleted".data <:+: ("" : String).data) := by
  refine ⟨rfl, ?_, ?_⟩ <;> decide

/-- Claim C3, amended: it is the dedicated `delete_asgardeo_application`
tool (not the generic call-plan executor) that synthesizes the
human-readable success observation on a 204 No Content response; that
observation names the deleted application id and confirms the deletion
(contains the word "deleted"). -/
theorem claim3_amended :
    ∀ app_id org key baseUrl : String, app_id ≠ "" →
      (delete_asgardeo_application app_id ⟨some key, some org⟩ baseUrl c3net).1
          = "Successfully deleted application with ID '" ++ app_id ++
            "' from organization '" ++ org ++ "'." ∧
      app_id.data <:+:
        ("Successfully deleted application with ID '" ++ app_id ++
         "' from organization '" ++ org ++ "'.").data ∧
      "deleted".data <:+:
        ("Successfully deleted application with ID '" ++ app_id ++
         "' from organization '" ++ org ++ "'.").data := by
  intro app_id org key baseUrl happ
  refine ⟨?_, ?_, ?_⟩
  · simp [delete_asgardeo_application, get_asgardeo_access_token, c3net, tokenRequest, happ,
          jTruthyV, objLookup]
  · exact ⟨"Successfully deleted application with ID '".data,
           ("' from organization '" ++ org ++ "'.").data, by simp⟩
  · have h1 : "deleted".data <:+: "Successfully deleted application with ID '".data := by decide
    exact h1.trans (List.prefix_append _ _).isInfix

/-- Witness for claim C3's amended theorem at a concrete input. -/
theorem claim3_amended_witness :
    (delete_asgardeo_application "abc123" ⟨some "K", some "demo"⟩ "https://h" c3net).1
        = "Successfully deleted application with ID 'abc123' from organization 'demo'." ∧
    "abc123".data <:+:
      "Successfully deleted application with ID 'abc123' from organization 'demo'.".data ∧
    "deleted".data <:+:
      "Successfully deleted application with ID 'abc123' from organization 'demo'.".data :=
  claim3_amended "abc123" "demo" "K" "https://h" (by decide)

/-- Claim C8: an executor input that is not valid JSON, or whose parsed
JSON object lacks a truthy (present and non-empty) `"method"` or `"path"`,
produces an error-string observation — no exception escapes `_run` and no
HTTP request is issued (the returned trace is empty). -/
theorem claim8 :
    (∀ raw cfg net, ApiExecutionTool.run raw none cfg net
        = (.ok ("Error: Input was not a valid JSON string: " ++ raw), [])) ∧
    (∀ raw (fields : List (String × JValue)) cfg net,
        jTruthy (objLookup fields "method") = false ∨ jTruthy (objLookup fields "path") = false →
        ApiExecutionTool.run raw (some (.obj fields)) cfg net
          = (.ok ("Error: Invalid content in JSON details: Parsed JSON details are missing 'method' or 'path'.. Received: "
                  ++ raw), [])) := by
  constructor
  · intro raw cfg net; rfl
  · intro raw fields cfg net h
    cases hm : objLookup fields "method" with
    | none => simp [ApiExecutionTool.run, hm]
    | some mv =>
      cases hp : objLookup fields "path" with
      | none => simp [ApiExecutionTool.run, hm, hp]
      | some pv =>
        rw [hm, hp] at h
        simp only [jTruthy, Option.elim] at h
        rcases h with h | h <;> simp [ApiExecutionTool.run, hm, hp, h]

/-- Witness for claim C8 at concrete inputs: a non-JSON input and a plan
missing `"method"`. -/
theorem claim8_witness :
    ApiExecutionTool.run "oops" none ⟨some "T", some "B"⟩ (fun _ => .otherExc "e")
        = (.ok "Error: Input was not a valid JSON string: oops", []) ∧
    ApiExecutionTool.run "\x7b\"path\": \"/x\"\x7d" (some (.obj [("path", .str "/x")]))
        ⟨some "T", some "B"⟩ (fun _ => .otherExc "e")
        = (.ok "Error: Invalid content in JSON details: Parsed JSON details are missing 'method' or 'path'.. Received: \x7b\"path\": \"/x\"\x7d",
           []) := by
  constructor
  · exact claim8.1 "oops" _ _
  · exact claim8.2 _ _ _ _ (Or.inl rfl)

/-- Claim C2: whenever the `/chat` endpoint sets the request-context
credential and tenant variables (i.e. the payload carries a non-empty
organization name), each of the two variables is reset exactly once before
the invocation completes — on the success path, on the agent-exception
path and on the invalid-chat-payload rejection — and the context
afterwards equals the incoming state (so a fresh request leaves it unset).
`maxChatHistory` models `config.MAX_CHAT_HISTORY`, which `main.py`
references but no file under `src/` defines; following the spec it is an
arbitrary bound and the theorem holds for every value. -/
theorem claim2 :
    ∀ (maxChatHistory : Nat) (runAgent : String → List (String × String) → Except String String)
      (payload : ChatRequestS) (key : String) (s0 : CtxState),
      payload.organization_name ≠ "" →
      (chat_endpoint maxChatHistory runAgent payload key s0).2 = (s0, 1, 1) := by
  intro mh runAgent payload key s0 h
  unfold chat_endpoint
  rw [if_neg h]
  dsimp only
  repeat' split
  all_goals rfl

/-- Witness for claim C2: a concrete valid chat invocation starting from an
unset context ends with the context unset and one reset per variable. -/
theorem claim2_witness :
    (chat_endpoint 5 (fun q _ => .ok q)
        ⟨"demo", [⟨"user", "hi"⟩]⟩ "KEY" ⟨none, none⟩).2 = (⟨none, none⟩, 1, 1) :=
  claim2 5 _ _ "KEY" _ (by decide)

/-- Helper: on a well-formed call-plan `{"method": m, "path": p}` with the
static token and base url configured, `_run` issues exactly the one
expected request and post-processes its outcome as in the source. -/
theorem exec_run_valid (raw m p tok burl : String) (hm : m ≠ "") (hp : p ≠ "")
    (htok : tok ≠ "") (hburl : burl ≠ "") (net : HttpRequest → HttpOutcome) :
    ApiExecutionTool.run raw (some (.obj [("method", .str m), ("path", .str p)]))
        ⟨some tok, some burl⟩ net
      = (let req : HttpRequest :=
           { method := pyUpper m, url := burl ++ p,
             headers := [("Authorization", "Bearer " ++ tok), ("Accept", "application/json"),
                         ("Content-Type", "application/json")],
             params := none, formData := none, jsonBody := none, timeout := some 30 };
         match net req with
         | .response status text json =>
           if 400 ≤ status ∧ status < 600 then
             (.ok ("API Request Failed: HTTP " ++ toString status ++
                   "\n--- Response Body ---\n" ++ text), [req])
           else
             match json with
             | some j => (.ok (jsonDumpsIndent2 j), [req])
             | none => (.ok text, [req])
         | .requestExc msg _ => (.ok ("API Request Failed: Connection or request error - " ++ msg), [req])
         | .otherExc msg => (.ok ("API Request Failed: Unexpected error - " ++ msg), [req])) := by
  simp [ApiExecutionTool.run, objLookup, jTruthyV, jTruthy, falsyOptStr, pyStr, hm, hp, htok, hburl]

/-- Claim C6: for a well-formed call-plan, every downstream outcome is
turned into a returned observation string — non-2xx responses yield the
fixed `"API Request Failed: HTTP {status}"` prefix followed by the
response body, transport failures yield the `"API Request Failed:"` prefix
followed by the connection-error description, and no downstream outcome
makes `_run` raise. -/
theorem claim6 :
    ∀ (raw m p tok burl text msg : String) (status : Nat) (j : JValue)
      (resp : Option (Nat × String)),
      m ≠ "" → p ≠ "" → tok ≠ "" → burl ≠ "" →
      (400 ≤ status → status < 600 →
        (ApiExecutionTool.run raw (some (.obj [("method", .str m), ("path", .str p)]))
            ⟨some tok, some burl⟩ (fun _ => .response status text (some j))).1
          = .ok ("API Request Failed: HTTP " ++ toString status ++
                 "\n--- Response Body ---\n" ++ text)) ∧
      (status < 400 →
        (ApiExecutionTool.run raw (some (.obj [("method", .str m), ("path", .str p)]))
            ⟨some tok, some burl⟩ (fun _ => .response status text (some j))).1
          = .ok (jsonDumpsIndent2 j)) ∧
      (status < 400 →
        (ApiExecutionTool.run raw (some (.obj [("method", .str m), ("path", .str p)]))
            ⟨some tok, some burl⟩ (fun _ => .response status text none)).1
          = .ok text) ∧
      ((ApiExecutionTool.run raw (some (.obj [("method", .str m), ("path", .str p)]))
            ⟨some tok, some burl⟩ (fun _ => .requestExc msg resp)).1
          = .ok ("API Request Failed: Connection or request error - " ++ msg)) ∧
      ((ApiExecutionTool.run raw (some (.obj [("method", .str m), ("path", .str p)]))
            ⟨some tok, some burl⟩ (fun _ => .otherExc msg)).1
          = .ok ("API Request Failed: Unexpected error - " ++ msg)) ∧
      (∀ outcome : HttpOutcome, ∃ s,
        (ApiExecutionTool.run raw (some (.obj [("method", .str m), ("path", .str p)]))
            ⟨some tok, some burl⟩ (fun _ => outcome)).1 = .ok s) := by
  intro raw m p tok burl text msg status j resp hm hp htok hburl
  refine ⟨?_, ?_, ?_, ?_, ?_, ?_⟩
  · intro h4 h6
    rw [exec_run_valid raw m p tok burl hm hp htok hburl]
    simp [h4, h6]
  · intro h4
    have h : ¬ (400 ≤ status ∧ status < 600) := by omega
    rw [exec_run_valid raw m p tok burl hm hp htok hburl]
    simp [h]
  · intro h4
    have h : ¬ (400 ≤ status ∧ status < 600) := by omega
    rw [exec_run_valid raw m p tok burl hm hp htok hburl]
    simp [h]
  · rw [exec_run_valid raw m p tok burl hm hp htok hburl]
  · rw [exec_run_valid raw m p tok burl hm hp htok hburl]
  · intro outcome
    rw [exec_run_valid raw m p tok burl hm hp htok hburl]
    cases outcome with
    | response status text json =>
      by_cases h : 400 ≤ status ∧ status < 600
      · exact ⟨"API Request Failed: HTTP " ++ toString status ++
               "\n--- Response Body ---\n" ++ text, by simp [h]⟩
      · cases json with
        | some j => exact ⟨jsonDumpsIndent2 j, by simp [h]⟩
        | none => exact ⟨text, by simp [h]⟩
    | requestExc msg resp => exact ⟨_, rfl⟩
    | otherExc msg => exact ⟨_, rfl⟩

/-- Witness for claim C6 at a concrete input (404 with a body, a transport
failure, an unexpected exception, and the never-raises case). -/
theorem claim6_witness :
    (ApiExecutionTool.run "x" (some (.obj [("method", .str "GET"), ("path", .str "/p")]))
        ⟨some "T", some "https://b"⟩ (fun _ => .response 404 "nf" (some .null))).1
      = .ok "API Request Failed: HTTP 404\n--- Response Body ---\nnf" ∧
    (ApiExecutionTool.run "x" (some (.obj [("method", .str "GET"), ("path", .str "/p")]))
        ⟨some "T", some "https://b"⟩ (fun _ => .requestExc "refused" none)).1
      = .ok "API Request Failed: Connection or request error - refused" ∧
    (∃ s, (ApiExecutionTool.run "x" (some (.obj [("method", .str "GET"), ("path", .str "/p")]))
        ⟨some "T", some "https://b"⟩ (fun _ => .response 301 "moved" none)).1 = .ok s) := by
  refine ⟨?_, ?_, ?_⟩
  · exact (claim6 "x" "GET" "/p" "T" "https://b" "nf" "refused" 404 .null none
      (by decide) (by decide) (by decide) (by decide)).1 (by omega) (by omega)
  · exact (claim6 "x" "GET" "/p" "T" "https://b" "nf" "refused" 404 .null none
      (by decide) (by decide) (by decide) (by decide)).2.2.2.1
  · exact (claim6 "x" "GET" "/p" "T" "https://b" "nf" "refused" 404 .null none
      (by decide) (by decide) (by decide) (by decide)).2.2.2.2.2 (.response 301 "moved" none)

/-- Claim C5: the token exchanger returns exactly the `access_token` value
of a 2xx JSON object body; a 2xx JSON object lacking a truthy
`access_token` fails with the missing-token error; a 4xx/5xx response
fails with an error carrying the real status code (both structurally and
inside the message text); transport failures and unexpected exceptions
also fail — no failure branch returns a token. -/
theorem claim5 :
    ∀ (baseUrl key org text msg : String) (status : Nat)
      (fields : List (String × JValue)) (T : String) (resp : Option (Nat × String)),
      (200 ≤ status → status < 300 → objLookup fields "access_token" = some (.str T) → T ≠ "" →
        (get_asgardeo_access_token baseUrl key org
            (fun _ => .response status text (some (.obj fields)))).2 = .ok (.str T)) ∧
      (200 ≤ status → status < 300 → jTruthy (objLookup fields "access_token") = false →
        (get_asgardeo_access_token baseUrl key org
            (fun _ => .response status text (some (.obj fields)))).2 = .error .missingToken) ∧
      (400 ≤ status → status < 600 →
        ∃ m, (get_asgardeo_access_token baseUrl key org
                (fun _ => .response status text (some (.obj fields)))).2
              = .error (.requestError (some status) m) ∧
            ("Status Code: " ++ toString status).data <:+: m.data) ∧
      (∃ f, (get_asgardeo_access_token baseUrl key org
          (fun _ => .requestExc msg resp)).2 = .error f) ∧
      (∃ f, (get_asgardeo_access_token baseUrl key org
          (fun _ => .otherExc msg)).2 = .error f) := by
  intro baseUrl key org text msg status fields T resp
  refine ⟨?_, ?_, ?_, ⟨_, rfl⟩, ⟨_, rfl⟩⟩
  · intro h2 h3 hl hT
    have h : ¬ (400 ≤ status ∧ status < 600) := by omega
    simp [get_asgardeo_access_token, h, hl, jTruthyV, hT]
  · intro h2 h3 hl
    have h : ¬ (400 ≤ status ∧ status < 600) := by omega
    cases hc : objLookup fields "access_token" with
    | none => simp [get_asgardeo_access_token, h, hc]
    | some v =>
      rw [hc] at hl
      simp only [jTruthy, Option.elim] at hl
      simp [get_asgardeo_access_token, h, hc, hl]
  · intro h4 h6
    refine ⟨"Failed to obtain Asgardeo token: " ++
            httpErrorStr status (tokenRequest baseUrl key org).url ++
            " | Status Code: " ++ toString status ++ " | Response: " ++ text, ?_, ?_⟩
    · simp [get_asgardeo_access_token, h4, h6]
    · refine ⟨("Failed to obtain Asgardeo token: " ++
               httpErrorStr status (tokenRequest baseUrl key org).url ++ " | ").data,
              (" | Response: " ++ text).data, ?_⟩
      have hsplit : (" | Status Code: " : String).data
          = (" | " : String).data ++ ("Status Code: " : String).data := by decide
      simp only [String.data_append, hsplit, List.append_assoc]
      rfl

/-- Witness for claim C5 at concrete inputs: a 200 with a token, a 200
without one, and a 404. -/
theorem claim5_witness :
    (get_asgardeo_access_token "https://h" "K" "demo"
        (fun _ => .response 200 "" (some (.obj [("access_token", .str "T")])))).2 = .ok (.str "T") ∧
    (get_asgardeo_access_token "https://h" "K" "demo"
        (fun _ => .response 200 "" (some (.obj [])))).2 = .error .missingToken ∧
    (∃ m, (get_asgardeo_access_token "https://h" "K" "demo"
            (fun _ => .response 404 "nf" (some (.obj [])))).2
          = .error (.requestError (some 404) m) ∧
        ("Status Code: 404").data <:+: m.data) := by
  refine ⟨?_, ?_, ?_⟩
  · exact (claim5 "https://h" "K" "demo" "" "x" 200 [("access_token", .str "T")] "T" none).1
      (by omega) (by omega) rfl (by decide)
  · exact (claim5 "https://h" "K" "demo" "" "x" 200 [] "T" none).2.1 (by omega) (by omega) rfl
  · exact (claim5 "https://h" "K" "demo" "nf" "x" 404 [] "T" none).2.2.1 (by omega) (by omega)

/-- Helper: the itemization loop never breaks when the total is at most
ten, so every application is itemized. -/
theorem buildAppList_of_le (total : Nat) (h : total ≤ 10) :
    ∀ (count : Nat) (fs : List (List (String × JValue))),
      buildAppList total count (fs.map .obj) = .ok (fs.map entryLine) := by
  intro count fs
  induction fs generalizing count with
  | nil => rfl
  | cons f rest ih =>
    have hbr : ¬ (10 ≤ count ∧ 10 < total) := by omega
    simp [buildAppList, hbr, ih, Except.map]

/-- Helper: with a total above ten the loop itemizes exactly the first
`10 - count` remaining applications and then appends the marker line. -/
theorem buildAppList_of_gt (total : Nat) (h : 10 < total) :
    ∀ (count : Nat) (fs : List (List (String × JValue))),
      count ≤ 10 → 10 - count < fs.length →
      buildAppList total count (fs.map .obj)
        = .ok ((fs.take (10 - count)).map entryLine ++ ["- ... (and more)"]) := by
  intro count fs
  induction fs generalizing count with
  | nil =>
    intro h1 h2
    simp at h2
  | cons f rest ih =>
    intro h1 h2
    by_cases hc : count = 10
    · subst hc
      simp [buildAppList, h]
    · have hbr : ¬ (10 ≤ count ∧ 10 < total) := by omega
      have htake : 10 - count = (10 - (count + 1)) + 1 := by omega
      simp only [List.map_cons, buildAppList, hbr, if_false, reduceIte]
      rw [ih (count + 1) (by omega) (by simp at h2 ⊢; omega)]
      simp [htake, Except.map]

/-- Claim C10: a successful list call over `n` applications reports the
full count `n` and itemizes at most ten of them: all `n` with no marker
when `n ≤ 10`, and exactly the first ten followed by the literal
`"- ... (and more)"` marker line when `n > 10`. -/
theorem claim10 :
    ∀ (key org baseUrl : String) (apps : List (List (String × JValue))),
      (list_asgardeo_applications ⟨some key, some org⟩ baseUrl (c10net apps)).1
        = "Found " ++ toString apps.length ++ " application(s) in organization '" ++ org ++
          "':\n" ++
          String.intercalate "\n"
            (if 10 < apps.length
             then (apps.take 10).map entryLine ++ ["- ... (and more)"]
             else apps.map entryLine) := by
  intro key org baseUrl apps
  have e : get_asgardeo_access_token baseUrl key org (c10net apps)
      = (tokenRequest baseUrl key org, .ok (.str "TOK")) := Prod.ext rfl rfl
  by_cases h10 : 10 < apps.length
  · have hb := buildAppList_of_gt apps.length h10 0 apps (by omega) (by omega)
    simp [list_asgardeo_applications, e, c10net, extractDataList, objLookup, jTruthyV,
          hb, h10, List.length_map]
  · have hb := buildAppList_of_le apps.length (not_lt.mp h10) 0 apps
    simp [list_asgardeo_applications, e, c10net, extractDataList, objLookup, jTruthyV,
          hb, h10, List.length_map]

/-- Helper: the fuel of `replaceAllGo` is irrelevant once it bounds the
text length. -/
theorem replaceAllGo_fuel (pat repl : List Char) :
    ∀ (f g : Nat) (s : List Char), s.length ≤ f → s.length ≤ g →
      replaceAllGo pat repl f s = replaceAllGo pat repl g s := by
  intro f
  induction f with
  | zero =>
    intro g s hf _
    have hs : s = [] := List.length_eq_zero.mp (Nat.le_zero.mp hf)
    subst hs
    cases g <;> rfl
  | succ f ih =>
    intro g s hf hg
    cases s with
    | nil => cases g <;> rfl
    | cons c cs =>
      cases g with
      | zero => simp at hg
      | succ g' =>
        have h1 : cs.length ≤ f := by simpa using hf
        have h2 : cs.length ≤ g' := by simpa using hg
        have hd : (cs.drop (pat.length - 1)).length ≤ cs.length := by simp
        simp only [replaceAllGo]
        by_cases hp : pat.isPrefixOf (c :: cs) = true
        · rw [if_pos hp, if_pos hp]
          exact congrArg _ (ih g' _ (le_trans hd h1) (le_trans hd h2))
        · rw [if_neg hp, if_neg hp]
          exact congrArg _ (ih g' cs h1 h2)

/-- Helper: a text containing no occurrence of the pattern is returned
unchanged. -/
theorem replaceAllGo_of_not_infix (pat repl : List Char) :
    ∀ (f : Nat) (s : List Char), s.length ≤ f → ¬ pat <:+: s →
      replaceAllGo pat repl f s = s := by
  intro f
  induction f with
  | zero =>
    intro s hf _
    have hs : s = [] := List.length_eq_zero.mp (Nat.le_zero.mp hf)
    subst hs
    rfl
  | succ f ih =>
    intro s hf hocc
    cases s with
    | nil => rfl
    | cons c cs =>
      have hpre : ¬ pat <+: (c :: cs) := fun h => hocc h.isInfix
      have hpb : ¬ pat.isPrefixOf (c :: cs) = true := by
        simpa [List.isPrefixOf_iff_prefix] using hpre
      have hrest : ¬ pat <:+: cs := fun h => hocc (List.infix_cons_iff.mpr (Or.inr h))
      simp only [replaceAllGo]
      rw [if_neg hpb]
      exact congrArg _ (ih cs (by simpa using hf) hrest)

/-- Helper: `replaceAll` on a text without occurrences is the identity
(a referenced key whose placeholder is absent is skipped without error). -/
theorem replaceAll_of_not_infix (pat repl s : List Char) (h : ¬ pat <:+: s) :
    replaceAll pat repl s = s :=
  replaceAllGo_of_not_infix pat repl s.length s le_rfl h

/-- Helper: when no occurrence of the pattern starts inside `pre`, the
explicit occurrence after it is the leftmost one: it is replaced, and
replacement continues in the remainder. -/
theorem replaceAll_step (pat repl : List Char) (hpat : pat ≠ []) :
    ∀ (pre suf : List Char), ¬ pat <:+: (pre ++ pat.dropLast) →
      replaceAll pat repl (pre ++ (pat ++ suf)) = pre ++ (repl ++ replaceAll pat repl suf) := by
  intro pre
  induction pre with
  | nil =>
    intro suf _
    cases pat with
    | nil => exact absurd rfl hpat
    | cons p0 pt =>
      have hp : (p0 :: pt).isPrefixOf (p0 :: (pt ++ suf)) = true :=
        List.isPrefixOf_iff_prefix.mpr (by rw [← List.cons_append]; exact List.prefix_append _ _)
      show replaceAll (p0 :: pt) repl ((p0 :: pt) ++ suf) = _
      rw [List.cons_append]
      show replaceAllGo (p0 :: pt) repl ((pt ++ suf).length + 1) (p0 :: (pt ++ suf)) = _
      simp only [replaceAllGo]
      rw [if_pos hp]
      rw [show (p0 :: pt).length - 1 = pt.length by simp]
      rw [List.drop_left]
      rw [replaceAllGo_fuel (p0 :: pt) repl (pt ++ suf).length suf.length suf
            (by simp) le_rfl]
      rfl
  | cons c pre' ih =>
    intro suf hno
    have hplen : 0 < pat.length := List.length_pos.mpr hpat
    have hpre : ¬ pat <+: (c :: (pre' ++ (pat ++ suf))) := by
      intro hp
      apply hno
      have hdecomp : (c :: pre') ++ (pat ++ suf)
          = ((c :: pre') ++ pat.dropLast) ++ ([pat.getLast hpat] ++ suf) := by
        conv_lhs => rw [← List.dropLast_append_getLast hpat]
        simp [List.append_assoc]
      have hlen : pat.length ≤ ((c :: pre') ++ pat.dropLast).length := by
        simp [List.length_dropLast]
        omega
      have h1 : pat <+: ((c :: pre') ++ (pat ++ suf)).take ((c :: pre') ++ pat.dropLast).length :=
        List.prefix_take_iff.mpr ⟨by simpa using hp, hlen⟩
      rw [hdecomp, List.take_left' rfl] at h1
      exact h1.isInfix
    have hpb : ¬ pat.isPrefixOf (c :: (pre' ++ (pat ++ suf))) = true := by
      simpa [List.isPrefixOf_iff_prefix] using hpre
    have hno' : ¬ pat <:+: (pre' ++ pat.dropLast) := by
      intro h
      exact hno (List.infix_cons_iff.mpr (Or.inr h))
    show replaceAll pat repl ((c :: pre') ++ (pat ++ suf)) = _
    rw [List.cons_append]
    show replaceAllGo pat repl ((pre' ++ (pat ++ suf)).length + 1) (c :: (pre' ++ (pat ++ suf)))
        = (c :: pre') ++ (repl ++ replaceAll pat repl suf)
    simp only [replaceAllGo]
    rw [if_neg hpb, List.cons_append]
    exact congrArg _ (ih suf hno')

/-- Helper: on a text that decomposes as parts joined by the pattern (with
no occurrence of the pattern starting inside a part or straddling a
junction), `replaceAll` replaces every occurrence, joining the same parts
with the replacement. -/
theorem replaceAll_joinWith (pat repl : List Char) (hpat : pat ≠ []) :
    ∀ parts : List (List Char),
      (∀ q ∈ parts, ¬ pat <:+: (q ++ pat.dropLast)) →
      replaceAll pat repl (joinWith pat parts) = joinWith repl parts := by
  intro parts
  induction parts with
  | nil => intro _; rfl
  | cons q rest ih =>
    intro hc
    cases rest with
    | nil =>
      have hq : ¬ pat <:+: q := by
        have h := hc q (by simp)
        exact fun hx => h (hx.trans (List.prefix_append _ _).isInfix)
      simpa [joinWith] using replaceAll_of_not_infix pat repl q hq
    | cons q' rest' =>
      have h1 := hc q (by simp)
      have step := replaceAll_step pat repl hpat q (joinWith pat (q' :: rest')) h1
      simp only [joinWith]
      rw [List.append_assoc, step,
          ih (fun x hx => hc x (by simp [hx])), List.append_assoc]

/-- Helper: one iteration of the substitution loop on a path that
decomposes as parts joined by the placeholder: the result joins the same
parts with the string form of the value. -/
theorem substStep_joinWith (k : String) (v : JValue) (parts : List (List Char))
    (hc : ∀ q ∈ parts, ¬ placeholderOf k <:+: (q ++ (placeholderOf k).dropLast)) :
    substStep (joinWith (placeholderOf k) parts) (k, v) = joinWith (pyStr v).data parts := by
  have hpat : placeholderOf k ≠ [] := by simp [placeholderOf]
  cases parts with
  | nil =>
    have : ¬ placeholderOf k <:+: ([] : List Char) := by
      simp [placeholderOf]
    simp [substStep, joinWith, this]
  | cons q rest =>
    cases rest with
    | nil =>
      have hq : ¬ placeholderOf k <:+: q := by
        have h := hc q (by simp)
        exact fun hx => h (hx.trans (List.prefix_append _ _).isInfix)
      simp [substStep, joinWith, hq]
    | cons q' rest' =>
      have hocc : placeholderOf k <:+: joinWith (placeholderOf k) (q :: q' :: rest') := by
        refine ⟨q, joinWith (placeholderOf k) (q' :: rest'), ?_⟩
        simp [joinWith, List.append_assoc]
      simp only [substStep, hocc, if_true]
      exact replaceAll_joinWith (placeholderOf k) (pyStr v).data hpat _ hc

/-- Claim C7: path substitution.  Concretely, `/Users/{userId}` with
`{"userId": "42"}` yields `/Users/42`, and an extra key absent from the
path leaves it untouched.  In general: a key whose placeholder does not
occur in the (current) path is skipped without error; a parameter mapping
none of whose placeholders occur leaves the path untouched (so a
placeholder with no corresponding key survives); and on a path that
decomposes as parts joined by `{key}`, every occurrence is replaced by the
string form of the key's value. -/
theorem claim7 :
    (substitutePathParams [("userId", .str "42")] "/Users/\x7buserId\x7d" = "/Users/42") ∧
    (substitutePathParams [("other", .str "1")] "/Users/\x7buserId\x7d"
        = "/Users/\x7buserId\x7d") ∧
    (∀ (k : String) (v : JValue) (p : List Char),
        ¬ placeholderOf k <:+: p → substStep p (k, v) = p) ∧
    (∀ (kvs : List (String × JValue)) (p : List Char),
        (∀ kv ∈ kvs, ¬ placeholderOf kv.1 <:+: p) → kvs.foldl substStep p = p) ∧
    (∀ (k : String) (v : JValue) (parts : List (List Char)),
        (∀ q ∈ parts, ¬ placeholderOf k <:+: (q ++ (placeholderOf k).dropLast)) →
        substStep (joinWith (placeholderOf k) parts) (k, v)
          = joinWith (pyStr v).data parts) := by
  refine ⟨by decide, by decide, ?_, ?_, substStep_joinWith⟩
  · intro k v p h
    simp [substStep, h]
  · intro kvs
    induction kvs with
    | nil => intro p _; rfl
    | cons kv rest ih =>
      intro p h
      have h0 : ¬ placeholderOf kv.1 <:+: p := h kv (by simp)
      have hstep : substStep p kv = p := by
        cases kv
        simp only [substStep]
        rw [if_neg h0]
      rw [List.foldl_cons, hstep]
      exact ih p (fun x hx => h x (by simp [hx]))

/-- Witness for claim C7: the general parts applied at concrete inputs — a
skipped key, an untouched path, and a two-occurrence path
`/t/{id}/x/{id}/y` fully substituted. -/
theorem claim7_witness :
    substStep "/Users/".data ("userId", .str "42") = "/Users/".data ∧
    [("a", JValue.str "1"), ("b", JValue.str "2")].foldl substStep "/Users/".data
      = "/Users/".data ∧
    substStep (joinWith (placeholderOf "id") ["/t/".data, "/x/".data, "/y".data])
        ("id", .str "7")
      = joinWith (pyStr (.str "7")).data ["/t/".data, "/x/".data, "/y".data] := by
  refine ⟨?_, ?_, ?_⟩
  · exact claim7.2.2.1 "userId" (.str "42") "/Users/".data (by decide)
  · exact claim7.2.2.2.1 [("a", .str "1"), ("b", .str "2")] "/Users/".data (by decide)
  · exact claim7.2.2.2.2 "id" (.str "7") ["/t/".data, "/x/".data, "/y".data] (by decide)

/-- Helper: `Char.ofNat` at a valid code point has that code point as its
`toNat`. -/
theorem charToNat_ofNat {n : Nat} (h : n.isValidChar) : (Char.ofNat n).toNat = n := by
  rw [Char.ofNat, dif_pos h]
  rfl

/-- Helper: the base64 digit map inverts the alphabet map. -/
theorem b64Digit_b64Char {i : Nat} (h : i < 64) : b64Digit (b64Char i) = some i := by
  interval_cases i <;> decide

/-- Helper: alphabet characters pass the decoder's pre-filter. -/
theorem isB64Alpha_b64Char {i : Nat} (h : i < 64) : isB64Alpha (b64Char i) = true := by
  rw [isB64Alpha, b64Digit_b64Char h]
  rfl

/-- Helper: alphabet characters are ASCII. -/
theorem b64Char_toNat_lt {i : Nat} (h : i < 64) : (b64Char i).toNat < 128 := by
  interval_cases i <;> decide

/-- Helper: alphabet characters are never the padding character. -/
theorem b64Char_ne_pad {i : Nat} (h : i < 64) : ¬ b64Char i = '=' := by
  intro he
  have hd := b64Digit_b64Char h
  rw [he, show b64Digit '=' = none from rfl] at hd
  exact Option.noConfusion hd

/-- Helper: every character of an encoded blob is alphabet-or-padding and
ASCII. -/
theorem b64Encode_mem : ∀ (bs : List Nat), (∀ b ∈ bs, b < 256) →
    ∀ c ∈ b64Encode bs, isB64Alpha c = true ∧ c.toNat < 128
  | [], _, c, hc => by simp [b64Encode] at hc
  | [a], hb, c, hc => by
    have ha : a < 256 := hb a (by simp)
    simp only [b64Encode, List.mem_cons, List.not_mem_nil, or_false] at hc
    rcases hc with h | h | h | h <;> subst h
    · exact ⟨isB64Alpha_b64Char (by omega), b64Char_toNat_lt (by omega)⟩
    · exact ⟨isB64Alpha_b64Char (by omega), b64Char_toNat_lt (by omega)⟩
    · exact ⟨by decide, by decide⟩
    · exact ⟨by decide, by decide⟩
  | [a, b], hb, c, hc => by
    have ha : a < 256 := hb a (by simp)
    have hbb : b < 256 := hb b (by simp)
    simp only [b64Encode, List.mem_cons, List.not_mem_nil, or_false] at hc
    rcases hc with h | h | h | h <;> subst h
    · exact ⟨isB64Alpha_b64Char (by omega), b64Char_toNat_lt (by omega)⟩
    · exact ⟨isB64Alpha_b64Char (by omega), b64Char_toNat_lt (by omega)⟩
    · exact ⟨isB64Alpha_b64Char (by omega), b64Char_toNat_lt (by omega)⟩
    · exact ⟨by decide, by decide⟩
  | a :: b :: c :: rest, hb, x, hx => by
    have ha : a < 256 := hb a (by simp)
    have hbb : b < 256 := hb b (by simp)
    have hcc : c < 256 := hb c (by simp)
    simp only [b64Encode, List.mem_cons] at hx
    rcases hx with h | h | h | h | h
    · subst h; exact ⟨isB64Alpha_b64Char (by omega), b64Char_toNat_lt (by omega)⟩
    · subst h; exact ⟨isB64Alpha_b64Char (by omega), b64Char_toNat_lt (by omega)⟩
    · subst h; exact ⟨isB64Alpha_b64Char (by omega), b64Char_toNat_lt (by omega)⟩
    · subst h; exact ⟨isB64Alpha_b64Char (by omega), b64Char_toNat_lt (by omega)⟩
    · exact b64Encode_mem rest (fun y hy => hb y (by simp [hy])) x h

/-- Helper: the `a2b_base64` state machine, started fresh, inverts the
encoder. -/
theorem a2bBase64Go_b64Encode : ∀ (bs : List Nat), (∀ b ∈ bs, b < 256) →
    a2bBase64Go (b64Encode bs) 0 0 0 = some bs
  | [], _ => rfl
  | [a], hb => by
    have ha : a < 256 := hb a (by simp)
    simp [b64Encode, a2bBase64Go, b64Digit_b64Char (show a / 4 < 64 by omega),
          b64Digit_b64Char (show a % 4 * 16 < 64 by omega),
          b64Char_ne_pad (show a / 4 < 64 by omega),
          b64Char_ne_pad (show a % 4 * 16 < 64 by omega)]
    all_goals omega
  | [a, b], hb => by
    have ha : a < 256 := hb a (by simp)
    have hbb : b < 256 := hb b (by simp)
    simp [b64Encode, a2bBase64Go, b64Digit_b64Char (show a / 4 < 64 by omega),
          b64Digit_b64Char (show a % 4 * 16 + b / 16 < 64 by omega),
          b64Digit_b64Char (show b % 16 * 4 < 64 by omega),
          b64Char_ne_pad (show a / 4 < 64 by omega),
          b64Char_ne_pad (show a % 4 * 16 + b / 16 < 64 by omega),
          b64Char_ne_pad (show b % 16 * 4 < 64 by omega)]
    all_goals omega
  | a :: b :: c :: rest, hb => by
    have ha : a < 256 := hb a (by simp)
    have hbb : b < 256 := hb b (by simp)
    have hcc : c < 256 := hb c (by simp)
    have hrec := a2bBase64Go_b64Encode rest (fun y hy => hb y (by simp [hy]))
    simp [b64Encode, a2bBase64Go, b64Digit_b64Char (show a / 4 < 64 by omega),
          b64Digit_b64Char (show a % 4 * 16 + b / 16 < 64 by omega),
          b64Digit_b64Char (show b % 16 * 4 + c / 64 < 64 by omega),
          b64Digit_b64Char (show c % 64 < 64 by omega),
          b64Char_ne_pad (show a / 4 < 64 by omega),
          b64Char_ne_pad (show a % 4 * 16 + b / 16 < 64 by omega),
          b64Char_ne_pad (show b % 16 * 4 + c / 64 < 64 by omega),
          b64Char_ne_pad (show c % 64 < 64 by omega), hrec]
    all_goals omega

/-- Helper: `base64.b64decode` inverts `base64.b64encode` on byte input. -/
theorem pyB64Decode_b64Encode (bs : List Nat) (hb : ∀ b ∈ bs, b < 256) :
    pyB64Decode (b64Encode bs) = some bs := by
  have hascii : (b64Encode bs).all (fun c => c.toNat < 128) = true :=
    List.all_eq_true.mpr fun c hc => by
      simpa using (b64Encode_mem bs hb c hc).2
  rw [pyB64Decode, if_pos hascii]
  exact a2bBase64Go_b64Encode bs hb

/-- Helper: UTF-8 encoded bytes are below 256. -/
theorem utf8EncodeChar_lt (c : Char) : ∀ b ∈ utf8EncodeChar c, b < 256 := by
  have hv : c.toNat.isValidChar := c.valid
  have hn : c.toNat < 1114112 := by rcases hv with h | ⟨_, h2⟩ <;> omega
  intro b hb
  simp only [utf8EncodeChar] at hb
  repeat' split at hb
  all_goals simp only [List.mem_cons, List.not_mem_nil, or_false] at hb
  all_goals omega

/-- Helper: the fuel of `utf8DecodeGo` is irrelevant once it bounds the
byte count. -/
theorem utf8Step2_congr {b : Nat} {bs : List Nat} {r1 r2 : List Nat → Option (List Char)}
    (h : ∀ bs', bs'.length < bs.length → r1 bs' = r2 bs') :
    utf8Step2 b bs r1 = utf8Step2 b bs r2 := by
  cases bs with
  | nil => rfl
  | cons b1 bs' =>
    simp only [utf8Step2]
    rw [h bs' (by simp)]

/-- Helper: `utf8Step3` only evaluates its recursion argument on a shorter
byte list. -/
theorem utf8Step3_congr {b : Nat} {bs : List Nat} {r1 r2 : List Nat → Option (List Char)}
    (h : ∀ bs', bs'.length < bs.length → r1 bs' = r2 bs') :
    utf8Step3 b bs r1 = utf8Step3 b bs r2 := by
  cases bs with
  | nil => rfl
  | cons b1 bs1 =>
    cases bs1 with
    | nil => rfl
    | cons b2 bs' =>
      simp only [utf8Step3]
      rw [h bs' (by simp only [List.length_cons]; omega)]

/-- Helper: `utf8Step4` only evaluates its recursion argument on a shorter
byte list. -/
theorem utf8Step4_congr {b : Nat} {bs : List Nat} {r1 r2 : List Nat → Option (List Char)}
    (h : ∀ bs', bs'.length < bs.length → r1 bs' = r2 bs') :
    utf8Step4 b bs r1 = utf8Step4 b bs r2 := by
  cases bs with
  | nil => rfl
  | cons b1 bs1 =>
    cases bs1 with
    | nil => rfl
    | cons b2 bs2 =>
      cases bs2 with
      | nil => rfl
      | cons b3 bs' =>
        simp only [utf8Step4]
        rw [h bs' (by simp only [List.length_cons]; omega)]

/-- Helper: the fuel of the UTF-8 decoding driver is irrelevant once it
bounds the byte count. -/
theorem utf8DecodeGo_fuel : ∀ (f g : Nat) (s : List Nat), s.length ≤ f → s.length ≤ g →
    utf8DecodeGo f s = utf8DecodeGo g s := by
  intro f
  induction f with
  | zero =>
    intro g s hf _
    have hs : s = [] := List.length_eq_zero.mp (Nat.le_zero.mp hf)
    subst hs
    cases g <;> rfl
  | succ f ih =>
    intro g s hf hg
    cases s with
    | nil => cases g <;> rfl
    | cons b bs =>
      cases g with
      | zero => simp at hg
      | succ g' =>
        have hb : bs.length ≤ f := by simpa using hf
        have hb' : bs.length ≤ g' := by simpa using hg
        have hcg : ∀ bs' : List Nat, bs'.length < bs.length →
            utf8DecodeGo f bs' = utf8DecodeGo g' bs' :=
          fun bs' hlt => ih g' bs' (by omega) (by omega)
        simp only [utf8DecodeGo]
        by_cases h1 : b < 0x80
        · rw [if_pos h1, if_pos h1, ih g' bs hb hb']
        · rw [if_neg h1, if_neg h1]
          by_cases h2 : b < 0xC2
          · rw [if_pos h2, if_pos h2]
          · rw [if_neg h2, if_neg h2]
            by_cases h3 : b < 0xE0
            · rw [if_pos h3, if_pos h3]
              exact utf8Step2_congr hcg
            · rw [if_neg h3, if_neg h3]
              by_cases h4 : b < 0xF0
              · rw [if_pos h4, if_pos h4]
                exact utf8Step3_congr hcg
              · rw [if_neg h4, if_neg h4]
                by_cases h5 : b < 0xF5
                · rw [if_pos h5, if_pos h5]
                  exact utf8Step4_congr hcg
                · rw [if_neg h5, if_neg h5]

/-- Helper: decoding an encoded scalar value at the head of a byte stream
peels off exactly that character. -/
theorem utf8DecodeGo_encodeChar (c : Char) (bs : List Nat) :
    ∀ f, (utf8EncodeChar c ++ bs).length ≤ f →
      utf8DecodeGo f (utf8EncodeChar c ++ bs) = (utf8Decode bs).map (c :: ·) := by
  have hv : c.toNat.isValidChar := c.valid
  have hn : c.toNat < 1114112 := by rcases hv with h | ⟨_, h2⟩ <;> omega
  intro f hf
  by_cases h1 : c.toNat < 0x80
  · have he : utf8EncodeChar c = [c.toNat] := by
      simp only [utf8EncodeChar]
      rw [if_pos h1]
    rw [he] at hf ⊢
    cases f with
    | zero => simp at hf
    | succ ff =>
      show utf8DecodeGo (ff + 1) (c.toNat :: bs) = _
      simp only [utf8DecodeGo]
      rw [if_pos h1, Char.ofNat_toNat,
          utf8DecodeGo_fuel ff bs.length bs (by simp at hf; omega) le_rfl]
      rfl
  · by_cases h2 : c.toNat < 0x800
    · have he : utf8EncodeChar c = [0xC0 + c.toNat / 64, 0x80 + c.toNat % 64] := by
        simp only [utf8EncodeChar]
        rw [if_neg h1, if_pos h2]
      rw [he] at hf ⊢
      cases f with
      | zero => simp at hf
      | succ ff =>
        show utf8DecodeGo (ff + 1) ((0xC0 + c.toNat / 64) :: (0x80 + c.toNat % 64) :: bs) = _
        simp only [utf8DecodeGo]
        rw [if_neg (by omega), if_neg (by omega), if_pos (by omega)]
        simp only [utf8Step2]
        rw [if_pos (show isContByte (0x80 + c.toNat % 64) = true by
              simp only [isContByte, decide_eq_true_eq]; omega)]
        rw [show (0xC0 + c.toNat / 64 - 0xC0) * 64 + (0x80 + c.toNat % 64 - 0x80) = c.toNat by
              omega,
            Char.ofNat_toNat,
            utf8DecodeGo_fuel ff bs.length bs (by simp at hf; omega) le_rfl]
        rfl
    · by_cases h3 : c.toNat < 0x10000
      · have he : utf8EncodeChar c
            = [0xE0 + c.toNat / 4096, 0x80 + c.toNat / 64 % 64, 0x80 + c.toNat % 64] := by
          simp only [utf8EncodeChar]
          rw [if_neg h1, if_neg h2, if_pos h3]
        rw [he] at hf ⊢
        cases f with
        | zero => simp at hf
        | succ ff =>
          show utf8DecodeGo (ff + 1)
              ((0xE0 + c.toNat / 4096) :: (0x80 + c.toNat / 64 % 64) ::
               (0x80 + c.toNat % 64) :: bs) = _
          simp only [utf8DecodeGo]
          rw [if_neg (by omega), if_neg (by omega), if_neg (by omega), if_pos (by omega)]
          simp only [utf8Step3]
          have hcond : (if 0xE0 + c.toNat / 4096 = 0xE0 then
                decide (0xA0 ≤ 0x80 + c.toNat / 64 % 64 ∧ 0x80 + c.toNat / 64 % 64 < 0xC0)
              else if 0xE0 + c.toNat / 4096 = 0xED then
                decide (0x80 ≤ 0x80 + c.toNat / 64 % 64 ∧ 0x80 + c.toNat / 64 % 64 < 0xA0)
              else isContByte (0x80 + c.toNat / 64 % 64)) = true
              ∧ isContByte (0x80 + c.toNat % 64) = true := by
            constructor
            · by_cases hE0 : 0xE0 + c.toNat / 4096 = 0xE0
              · rw [if_pos hE0]
                simp only [decide_eq_true_eq]
                omega
              · rw [if_neg hE0]
                by_cases hED : 0xE0 + c.toNat / 4096 = 0xED
                · rw [if_pos hED]
                  have hns : c.toNat < 0xd800 := by
                    rcases hv with h | ⟨hb1, _⟩
                    · exact h
                    · omega
                  simp only [decide_eq_true_eq]
                  omega
                · rw [if_neg hED]
                  simp only [isContByte, decide_eq_true_eq]
                  omega
            · simp only [isContByte, decide_eq_true_eq]
              omega
          rw [if_pos hcond]
          rw [show (0xE0 + c.toNat / 4096 - 0xE0) * 4096
                + (0x80 + c.toNat / 64 % 64 - 0x80) * 64
                + (0x80 + c.toNat % 64 - 0x80) = c.toNat by omega,
              Char.ofNat_toNat,
              utf8DecodeGo_fuel ff bs.length bs (by simp at hf; omega) le_rfl]
          rfl
      · have he : utf8EncodeChar c
            = [0xF0 + c.toNat / 262144, 0x80 + c.toNat / 4096 % 64,
               0x80 + c.toNat / 64 % 64, 0x80 + c.toNat % 64] := by
          simp only [utf8EncodeChar]
          rw [if_neg h1, if_neg h2, if_neg h3]
        rw [he] at hf ⊢
        cases f with
        | zero => simp at hf
        | succ ff =>
          show utf8DecodeGo (ff + 1)
              ((0xF0 + c.toNat / 262144) :: (0x80 + c.toNat / 4096 % 64) ::
               (0x80 + c.toNat / 64 % 64) :: (0x80 + c.toNat % 64) :: bs) = _
          simp only [utf8DecodeGo]
          rw [if_neg (by omega), if_neg (by omega), if_neg (by omega), if_neg (by omega),
              if_pos (by omega)]
          simp only [utf8Step4]
          have hcond : (if 0xF0 + c.toNat / 262144 = 0xF0 then
                decide (0x90 ≤ 0x80 + c.toNat / 4096 % 64 ∧ 0x80 + c.toNat / 4096 % 64 < 0xC0)
              else if 0xF0 + c.toNat / 262144 = 0xF4 then
                decide (0x80 ≤ 0x80 + c.toNat / 4096 % 64 ∧ 0x80 + c.toNat / 4096 % 64 < 0x90)
              else isContByte (0x80 + c.toNat / 4096 % 64)) = true
              ∧ isContByte (0x80 + c.toNat / 64 % 64) = true
              ∧ isContByte (0x80 + c.toNat % 64) = true := by
            refine ⟨?_, by simp only [isContByte, decide_eq_true_eq]; omega,
                    by simp only [isContByte, decide_eq_true_eq]; omega⟩
            by_cases hF0 : 0xF0 + c.toNat / 262144 = 0xF0
            · rw [if_pos hF0]
              simp only [decide_eq_true_eq]
              omega
            · rw [if_neg hF0]
              by_cases hF4 : 0xF0 + c.toNat / 262144 = 0xF4
              · rw [if_pos hF4]
                simp only [decide_eq_true_eq]
                omega
              · rw [if_neg hF4]
                simp only [isContByte, decide_eq_true_eq]
                omega
          rw [if_pos hcond]
          rw [show (0xF0 + c.toNat / 262144 - 0xF0) * 262144
                + (0x80 + c.toNat / 4096 % 64 - 0x80) * 4096
                + (0x80 + c.toNat / 64 % 64 - 0x80) * 64
                + (0x80 + c.toNat % 64 - 0x80) = c.toNat by omega,
              Char.ofNat_toNat,
              utf8DecodeGo_fuel ff bs.length bs (by simp at hf; omega) le_rfl]
          rfl

/-- Helper: UTF-8 decoding inverts UTF-8 encoding. -/
theorem utf8Decode_utf8Encode (s : List Char) : utf8Decode (utf8Encode s) = some s := by
  induction s with
  | nil => rfl
  | cons c cs ih =>
    have he : utf8Encode (c :: cs) = utf8EncodeChar c ++ utf8Encode cs := by
      simp [utf8Encode]
    rw [he]
    show utf8DecodeGo (utf8EncodeChar c ++ utf8Encode cs).length
        (utf8EncodeChar c ++ utf8Encode cs) = some (c :: cs)
    rw [utf8DecodeGo_encodeChar c (utf8Encode cs) _ le_rfl, ih]
    rfl

/-- Helper: every byte of a UTF-8 encoded string is below 256. -/
theorem utf8Encode_lt (s : List Char) : ∀ b ∈ utf8Encode s, b < 256 := by
  intro b hb
  simp only [utf8Encode, List.mem_flatten, List.mem_map] at hb
  obtain ⟨l, ⟨c, _, rfl⟩, hbl⟩ := hb
  exact utf8EncodeChar_lt c b hbl

/-- Helper: a string built from a non-empty character list is not `""`. -/
theorem mk_ne_empty {l : List Char} (h : l ≠ []) : (⟨l⟩ : String) ≠ "" :=
  fun he => h (congrArg String.data he : l = [])

/-- Helper: a non-empty string has a non-empty character list. -/
theorem data_ne_nil {s : String} (h : s ≠ "") : s.data ≠ [] := by
  intro hd
  apply h
  obtain ⟨l⟩ := s
  have hd' : l = [] := hd
  subst hd'
  rfl

/-- Helper: the UTF-8 encoding of a character is never empty. -/
theorem utf8EncodeChar_ne_nil (c : Char) : utf8EncodeChar c ≠ [] := by
  intro h
  rw [utf8EncodeChar] at h
  repeat' split at h
  all_goals simp_all

/-- Helper: the UTF-8 encoding of a non-empty string is never empty. -/
theorem utf8Encode_ne_nil {s : List Char} (h : s ≠ []) : utf8Encode s ≠ [] := by
  match s, h with
  | c :: cs, _ =>
    simp only [utf8Encode, List.map_cons, List.flatten_cons]
    exact fun hap => utf8EncodeChar_ne_nil c (List.append_eq_nil.mp hap).1

/-- Helper: the base64 encoding of a non-empty byte list is never empty. -/
theorem b64Encode_ne_nil : ∀ {bs : List Nat}, bs ≠ [] → b64Encode bs ≠ []
  | [], h => absurd rfl h
  | [_], _ => by simp [b64Encode]
  | [_, _], _ => by simp [b64Encode]
  | _ :: _ :: _ :: _, _ => by simp [b64Encode]

/-- Helper: lower-casing an alphabet-or-padding character never yields the
space that ends the `"basic "` marker. -/
theorem asciiLower_ne_space {c : Char} (h : isB64Alpha c = true) :
    asciiLower c ≠ ' ' := by
  intro he
  rw [asciiLower] at he
  by_cases hAZ : 'A' ≤ c ∧ c ≤ 'Z'
  · rw [if_pos hAZ] at he
    have h1 : 65 ≤ c.toNat := hAZ.1
    have h2 : c.toNat ≤ 90 := hAZ.2
    have hv : (c.toNat + 32).isValidChar := Or.inl (by omega)
    have ht : c.toNat + 32 = Char.toNat ' ' := by rw [← charToNat_ofNat hv, he]
    rw [show Char.toNat ' ' = 32 from rfl] at ht
    omega
  · rw [if_neg hAZ] at he
    subst he
    exact absurd h (by decide)

/-- Helper: a base64 blob (alphabet and padding characters only) never
carries the case-insensitive `"Basic "` marker, so `decode_api_key` leaves
it whole. -/
theorem stripBasic_of_alpha {s : List Char} (h : ∀ c ∈ s, isB64Alpha c = true) :
    stripBasic s = s := by
  rw [stripBasic, if_neg]
  intro hp
  rw [ List.isPrefixOf_iff_prefix] at hp
  have hsp : ' ' ∈ s.map asciiLower := hp.subset (by decide)
  obtain ⟨c, hc, hce⟩ := List.mem_map.mp hsp
  exact asciiLower_ne_space (h c hc) hce

/-- Helper: a six-character chunk that lower-cases to `"basic "` is
stripped off by `stripBasic`, leaving the blob behind it. -/
theorem stripBasic_marker {pfx blob : List Char}
    (h : pfx.map asciiLower = "basic ".data) :
    stripBasic (pfx ++ blob) = blob := by
  have hlen : pfx.length = 6 := by simpa using congrArg List.length h
  have hp : ("basic ".data).isPrefixOf ((pfx ++ blob).map asciiLower) = true := by
    rw [ List.isPrefixOf_iff_prefix, List.map_append, h]
    exact List.prefix_append _ _
  rw [stripBasic, if_pos hp, ← hlen, List.drop_left]

/-- Helper: `s.split(':', 1)` on text whose first colon separates `pre`
from `post` returns exactly that split. -/
theorem splitColonFirst_before : ∀ (pre : List Char), ':' ∉ pre → ∀ (post : List Char),
    splitColonFirst (pre ++ ':' :: post) = (pre, some post)
  | [], _, post => by simp [splitColonFirst]
  | c :: cs, h, post => by
    have hc : ¬ c = ':' := fun hh => h (by simp [hh])
    have hcs : ':' ∉ cs := fun hh => h (by simp [hh])
    simp only [List.cons_append, splitColonFirst, if_neg hc, List.append_eq,
      splitColonFirst_before cs hcs post]

/-- Helper: `s.split(':', 1)` on colon-free text returns the whole text and
no second half. -/
theorem splitColonFirst_of_not_mem : ∀ {l : List Char}, ':' ∉ l → splitColonFirst l = (l, none)
  | [], _ => rfl
  | c :: cs, h => by
    have hc : ¬ c = ':' := fun hh => h (by simp [hh])
    have hcs : ':' ∉ cs := fun hh => h (by simp [hh])
    simp only [splitColonFirst, if_neg hc, splitColonFirst_of_not_mem hcs]

/-- Helper: whenever the marker-strip of a non-empty header is exactly the
base64 encoding of `id:secret` (both halves non-empty, `id` colon-free),
`decode_api_key` returns `(id, secret)`. -/
theorem decode_api_key_of_strip {hdr id secret : String} (hne : hdr ≠ "")
    (hstrip : stripBasic hdr.data = b64Encode (utf8Encode (id.data ++ ':' :: secret.data)))
    (hid : id.data ≠ []) (hsec : secret.data ≠ []) (hcolon : ':' ∉ id.data) :
    decode_api_key hdr = .ok (id, secret) := by
  have hbytes : ∀ b ∈ utf8Encode (id.data ++ ':' :: secret.data), b < 256 :=
    utf8Encode_lt _
  simp only [decode_api_key, if_neg hne, hstrip, pyB64Decode_b64Encode _ hbytes,
    utf8Decode_utf8Encode, splitColonFirst_before id.data hcolon secret.data]
  rw [if_pos ⟨hid, hsec⟩]

/-- Helper: a non-empty header whose stripped form is not valid base64
fails with the base64 error. -/
theorem decode_api_key_b64_error {hdr : String} (hne : hdr ≠ "")
    (h : pyB64Decode (stripBasic hdr.data) = none) :
    decode_api_key hdr = .error .base64Error := by
  simp only [decode_api_key, if_neg hne, h]

/-- Helper: a non-empty header whose base64-decoded bytes are not valid
UTF-8 fails with the unicode error. -/
theorem decode_api_key_unicode_error {hdr : String} {bytes : List Nat} (hne : hdr ≠ "")
    (h1 : pyB64Decode (stripBasic hdr.data) = some bytes)
    (h2 : utf8Decode bytes = none) :
    decode_api_key hdr = .error .unicodeError := by
  simp only [decode_api_key, if_neg hne, h1, h2]

/-- Helper: decoded text with no colon fails with the no-colon format
error. -/
theorem decode_api_key_no_colon {hdr : String} {bytes : List Nat} {txt : List Char}
    (hne : hdr ≠ "") (h1 : pyB64Decode (stripBasic hdr.data) = some bytes)
    (h2 : utf8Decode bytes = some txt) (h3 : ':' ∉ txt) :
    decode_api_key hdr = .error .formatNoColon := by
  simp only [decode_api_key, if_neg hne, h1, h2, splitColonFirst_of_not_mem h3]

/-- Helper: decoded text splitting with an empty half fails with the
empty-half format error. -/
theorem decode_api_key_empty_half {hdr : String} {bytes : List Nat}
    {txt pre post : List Char} (hne : hdr ≠ "")
    (h1 : pyB64Decode (stripBasic hdr.data) = some bytes)
    (h2 : utf8Decode bytes = some txt)
    (h3 : splitColonFirst txt = (pre, some post)) (h4 : pre = [] ∨ post = []) :
    decode_api_key hdr = .error .formatEmptyHalf := by
  simp only [decode_api_key, if_neg hne, h1, h2, h3]
  rw [if_neg]
  rcases h4 with h | h <;> simp [h]

/-- **C4.** `decode_api_key` round trip and failure modes: (1) for every
non-empty colon-free `id` and non-empty `secret`, a header made of an
optional case-insensitive `"Basic "` marker plus `base64(utf8(id:secret))`
decodes to exactly `(id, secret)`; (2) a header that is not valid base64
after marker-stripping fails with the base64 (bad-encoding) error; (3) a
header whose bytes are not valid UTF-8 fails with the unicode
(bad-encoding) error; (4) decoded text with no `:` fails with the
no-colon format error; (5) decoded text with an empty half around the
first `:` fails with the empty-half format error. -/
theorem claim4 :
    (∀ (id secret pfx : String), id ≠ "" → secret ≠ "" → ':' ∉ id.data →
      (pfx = "" ∨ pfx.data.map asciiLower = "basic ".data) →
      decode_api_key ⟨pfx.data ++ b64Encode (utf8Encode (id.data ++ ':' :: secret.data))⟩ =
        .ok (id, secret)) ∧
    (∀ (hdr : String), hdr ≠ "" → pyB64Decode (stripBasic hdr.data) = none →
      decode_api_key hdr = .error .base64Error) ∧
    (∀ (hdr : String) (bytes : List Nat), hdr ≠ "" →
      pyB64Decode (stripBasic hdr.data) = some bytes → utf8Decode bytes = none →
      decode_api_key hdr = .error .unicodeError) ∧
    (∀ (hdr : String) (bytes : List Nat) (txt : List Char), hdr ≠ "" →
      pyB64Decode (stripBasic hdr.data) = some bytes → utf8Decode bytes = some txt →
      ':' ∉ txt → decode_api_key hdr = .error .formatNoColon) ∧
    (∀ (hdr : String) (bytes : List Nat) (txt pre post : List Char), hdr ≠ "" →
      pyB64Decode (stripBasic hdr.data) = some bytes → utf8Decode bytes = some txt →
      splitColonFirst txt = (pre, some post) → pre = [] ∨ post = [] →
      decode_api_key hdr = .error .formatEmptyHalf) := by
  refine ⟨?_, fun hdr => decode_api_key_b64_error,
    fun hdr bytes => decode_api_key_unicode_error,
    fun hdr bytes txt => decode_api_key_no_colon,
    fun hdr bytes txt pre post => decode_api_key_empty_half⟩
  intro id secret pfx hid hsec hcolon hpfx
  have hid' : id.data ≠ [] := data_ne_nil hid
  have hsec' : secret.data ≠ [] := data_ne_nil hsec
  have hbytes : ∀ b ∈ utf8Encode (id.data ++ ':' :: secret.data), b < 256 :=
    utf8Encode_lt _
  have hblob : b64Encode (utf8Encode (id.data ++ ':' :: secret.data)) ≠ [] :=
    b64Encode_ne_nil (utf8Encode_ne_nil (by simp))
  rcases hpfx with h | h
  · subst h
    exact decode_api_key_of_strip (mk_ne_empty hblob)
      (stripBasic_of_alpha fun c hc => (b64Encode_mem _ hbytes c hc).1)
      hid' hsec' hcolon
  · have hpne : pfx.data ≠ [] := by
      intro hh
      have hlen : pfx.data.length = 6 := by simpa using congrArg List.length h
      rw [hh] at hlen
      simp at hlen
    exact decode_api_key_of_strip
      (mk_ne_empty fun hh => hpne (List.append_eq_nil.mp hh).1)
      (stripBasic_marker h) hid' hsec' hcolon

/-- Witness for claim C4: the round trip at `id = "client"`,
`secret = "s3cret"` with and without a `"Basic "` marker, and one concrete
header for each failure mode. -/
theorem claim4_witness :
    decode_api_key ⟨"".data ++ b64Encode (utf8Encode ("client".data ++ ':' :: "s3cret".data))⟩
      = .ok ("client", "s3cret") ∧
    decode_api_key
        ⟨"Basic ".data ++ b64Encode (utf8Encode ("client".data ++ ':' :: "s3cret".data))⟩
      = .ok ("client", "s3cret") ∧
    decode_api_key "YQ" = .error .base64Error ∧
    decode_api_key "/w==" = .error .unicodeError ∧
    decode_api_key "YWJj" = .error .formatNoColon ∧
    decode_api_key "OnM=" = .error .formatEmptyHalf :=
  ⟨claim4.1 "client" "s3cret" "" (by decide) (by decide) (by decide) (Or.inl rfl),
   claim4.1 "client" "s3cret" "Basic " (by decide) (by decide) (by decide)
     (Or.inr (by decide)),
   claim4.2.1 "YQ" (by decide) (by decide),
   claim4.2.2.1 "/w==" [255] (by decide) (by decide) (by decide),
   claim4.2.2.2.1 "YWJj" [97, 98, 99] "abc".data (by decide) (by decide) (by decide)
     (by decide),
   claim4.2.2.2.2 "OnM=" [58, 115] (':' :: "s".data) [] "s".data (by decide) (by decide)
     (by decide) (by decide) (Or.inl rfl)⟩

end AsgardeoAgent
